import Mathlib

set_option autoImplicit false
set_option maxRecDepth 8192

/-!
Verification development for the `airflow-prometheus-exporter` plugin.

The Python sources (`prometheus_exporter.py`, `xcom_config.py`) are shallowly
embedded below:

* the orchestrator's metadata store is a record of row lists (`Db`);
* each SQLAlchemy read query becomes a pure Lean function over `Db`,
  with SQL `GROUP BY` / `JOIN` / aggregate semantics spelled out
  (in particular `COUNT(col)` skips `NULL`s, inner joins are flat maps,
  and `MAX` over an all-`NULL` group yields no join match);
* Python dictionaries are association lists with insertion-order append;
* fallible Python code (raised exceptions) returns `Except String`;
* timestamps are integers (seconds); `(a - b).total_seconds()` is `a - b`;
* external collaborators (`pickle.loads`, `yaml.load`, the config file
  system) are parameters of the embedding, and `json.loads` / the UTF-8
  JSON encoding are modelled by an executable JSON printer/scanner pair
  defined below.
-/

namespace AirflowExporter

/-- JSON-like dynamic values: the results of `json.loads`, also used as the
dynamic value slot of emitted metric samples.  Numbers are modelled as
integers (floating point is outside the embedding). -/
inductive Json where
  | null
  | bool (b : Bool)
  | num (n : Int)
  | str (s : String)
  | arr (items : List Json)
  | obj (fields : List (String × Json))

/-- One row of the `task_instance` table (the columns this plugin touches).
Nullable columns are `Option`. -/
structure TaskInstanceRow where
  dag_id : String
  task_id : String
  state : Option String
  start_date : Option Int
  end_date : Option Int
  execution_date : Int
  queue : String
  queued_dttm : Option Int
deriving DecidableEq

/-- One row of the `dag_run` table. -/
structure DagRunRow where
  dag_id : String
  state : Option String
  execution_date : Int
  start_date : Option Int
  end_date : Option Int
deriving DecidableEq

/-- One row of the `dag` (DagModel) table. -/
structure DagModelRow where
  dag_id : String
  owners : String
  is_active : Bool
  is_paused : Bool
deriving DecidableEq

/-- One row of the `task_fail` table. -/
structure TaskFailRow where
  dag_id : String
  task_id : String
deriving DecidableEq

/-- One row of the `xcom` table; `value` holds the raw serialized blob,
modelled as the text content of the stored bytes. -/
structure XComRow where
  dag_id : String
  task_id : String
  key : String
  execution_date : Int
  value : String
deriving DecidableEq

/-- The metadata database visible to the exporter. -/
structure Db where
  task_instances : List TaskInstanceRow
  dag_runs : List DagRunRow
  dag_models : List DagModelRow
  task_fails : List TaskFailRow
  xcoms : List XComRow
deriving DecidableEq

/-! ### JSON model

Model of the Python `json` stdlib as used by `extract_xcom_parameter`:
an executable printer (`jsonEncode`, the UTF-8 JSON encoding of a value)
and an executable scanner (`jsonParse`, modelling `json.loads`, which
returns `none` where `json.loads` would raise a decode error).  The
scanner is lenient about a trailing comma inside brackets; no claim
depends on inputs of that shape. -/

/-- Left brace character, U+007B. -/
def lbrace : Char := '\x7b'

/-- Right brace character, U+007D. -/
def rbrace : Char := '\x7d'

/-- JSON insignificant whitespace. -/
def isJsonWs (c : Char) : Bool :=
  c = ' ' || c = '\t' || c = '\n' || c = '\r'

/-- Drop leading JSON whitespace. -/
def skipWs : List Char → List Char
  | [] => []
  | c :: cs => if isJsonWs c then skipWs cs else c :: cs

/-- The decimal digit character for `n % 10`-style values. -/
def digitCharOf (n : Nat) : Char :=
  match n with
  | 0 => '0' | 1 => '1' | 2 => '2' | 3 => '3' | 4 => '4'
  | 5 => '5' | 6 => '6' | 7 => '7' | 8 => '8' | _ => '9'

/-- The lowercase hexadecimal digit character for `n % 16`-style values. -/
def hexCharOf (n : Nat) : Char :=
  match n with
  | 0 => '0' | 1 => '1' | 2 => '2' | 3 => '3' | 4 => '4'
  | 5 => '5' | 6 => '6' | 7 => '7' | 8 => '8' | 9 => '9'
  | 10 => 'a' | 11 => 'b' | 12 => 'c' | 13 => 'd' | 14 => 'e' | _ => 'f'

/-- Numeric value of a decimal digit character. -/
def digitVal (c : Char) : Nat := c.toNat - '0'.toNat

/-- Recognizer for the hexadecimal digits accepted after `\u`. -/
def isHexChar (c : Char) : Bool :=
  c.isDigit || ('a' ≤ c && c ≤ 'f') || ('A' ≤ c && c ≤ 'F')

/-- Numeric value of a hexadecimal digit character. -/
def hexVal (c : Char) : Nat :=
  if c.isDigit then c.toNat - '0'.toNat
  else if 'a' ≤ c && c ≤ 'f' then c.toNat - 'a'.toNat + 10
  else c.toNat - 'A'.toNat + 10

/-- Decimal digit characters of a natural number (no leading zeros except
for `0` itself). -/
def natChars (n : Nat) : List Char :=
  if _h : n < 10 then [digitCharOf n]
  else natChars (n / 10) ++ [digitCharOf (n % 10)]
termination_by n
decreasing_by exact Nat.div_lt_self (by omega) (by omega)

/-- Decimal digit characters of an integer, with a leading minus sign when
negative («the way Python prints an int inside a JSON document»). -/
def intChars (n : Int) : List Char :=
  if n < 0 then '-' :: natChars (-n).toNat else natChars n.toNat

/-- Natural number denoted by a list of decimal digit characters. -/
def natFromDigits (ds : List Char) : Nat :=
  ds.foldl (fun a c => a * 10 + digitVal c) 0

/-- Split off the maximal run of decimal digit characters. -/
def takeDigits : List Char → (List Char × List Char)
  | [] => ([], [])
  | c :: cs =>
    if c.isDigit then
      let p := takeDigits cs
      (c :: p.1, p.2)
    else ([], c :: cs)

/-- Escape one character for inclusion in a JSON string literal. -/
def escapeChar (c : Char) : List Char :=
  if c = '"' then ['\\', '"']
  else if c = '\\' then ['\\', '\\']
  else if c.toNat < 32 then
    ['\\', 'u', '0', '0', hexCharOf (c.toNat / 16), hexCharOf (c.toNat % 16)]
  else [c]

/-- Escape a whole string body. -/
def escapeChars (l : List Char) : List Char := l.flatMap escapeChar

/-- Scan a JSON string literal body (the opening quote is already
consumed), un-escaping as `json.loads` does; returns the decoded
characters and the input following the closing quote. -/
def scanStr : List Char → Option (List Char × List Char)
  | [] => none
  | c :: cs =>
    if c = '"' then some ([], cs)
    else if c = '\\' then
      match cs with
      | [] => none
      | e :: cs' =>
        if e = '"' then (scanStr cs').map fun p => ('"' :: p.1, p.2)
        else if e = '\\' then (scanStr cs').map fun p => ('\\' :: p.1, p.2)
        else if e = '/' then (scanStr cs').map fun p => ('/' :: p.1, p.2)
        else if e = 'b' then (scanStr cs').map fun p => ('\x08' :: p.1, p.2)
        else if e = 'f' then (scanStr cs').map fun p => ('\x0c' :: p.1, p.2)
        else if e = 'n' then (scanStr cs').map fun p => ('\n' :: p.1, p.2)
        else if e = 'r' then (scanStr cs').map fun p => ('\r' :: p.1, p.2)
        else if e = 't' then (scanStr cs').map fun p => ('\t' :: p.1, p.2)
        else if e = 'u' then
          match cs' with
          | h1 :: h2 :: h3 :: h4 :: cs'' =>
            if isHexChar h1 && isHexChar h2 && isHexChar h3 && isHexChar h4 then
              (scanStr cs'').map fun p =>
                (Char.ofNat
                  (((hexVal h1 * 16 + hexVal h2) * 16 + hexVal h3) * 16
                    + hexVal h4) :: p.1, p.2)
            else none
          | _ => none
        else none
    else (scanStr cs).map fun p => (c :: p.1, p.2)

/-- One fuel level of the three JSON scanners (value, array items,
object fields), defined together by structural recursion on the fuel so
that they compute by plain reduction.  At fuel `f + 1`, the value scanner
enters brackets with fuel `f`, and the item/field scanners scan each
element with the current fuel and continue after a comma with fuel
`f`. -/
def parseStep : Nat →
    (List Char → Option (Json × List Char))
    × (List Char → Option (List Json × List Char))
    × (List Char → Option (List (String × Json) × List Char))
  | 0 => (fun _ => none, fun _ => none, fun _ => none)
  | f + 1 =>
    let prev := parseStep f
    let pv : List Char → Option (Json × List Char) := fun cs =>
      match skipWs cs with
      | [] => none
      | c :: r =>
        if c.isDigit then
          let p := takeDigits (c :: r)
          some (.num (natFromDigits p.1 : Int), p.2)
        else if c = '-' then
          let p := takeDigits r
          if p.1 = [] then none
          else some (.num (-(natFromDigits p.1 : Int)), p.2)
        else if c = '"' then
          (scanStr r).map fun p => (.str (String.mk p.1), p.2)
        else if c = '[' then
          (prev.2.1 r).map fun p => (.arr p.1, p.2)
        else if c = lbrace then
          (prev.2.2 r).map fun p => (.obj p.1, p.2)
        else if c = 'n' then
          if r.take 3 = ['u', 'l', 'l'] then some (.null, r.drop 3) else none
        else if c = 't' then
          if r.take 3 = ['r', 'u', 'e'] then some (.bool true, r.drop 3) else none
        else if c = 'f' then
          if r.take 4 = ['a', 'l', 's', 'e'] then some (.bool false, r.drop 4) else none
        else none
    let pi : List Char → Option (List Json × List Char) := fun cs =>
      match skipWs cs with
      | [] => none
      | c :: r =>
        if c = ']' then some ([], r)
        else
          match pv (c :: r) with
          | none => none
          | some (v, r1) =>
            match skipWs r1 with
            | [] => none
            | c2 :: r2 =>
              if c2 = ',' then
                match prev.2.1 r2 with
                | none => none
                | some (vs, r3) => some (v :: vs, r3)
              else if c2 = ']' then some ([v], r2)
              else none
    let pf : List Char → Option (List (String × Json) × List Char) := fun cs =>
      match skipWs cs with
      | [] => none
      | c :: r =>
        if c = rbrace then some ([], r)
        else if c = '"' then
          match scanStr r with
          | none => none
          | some (k, r1) =>
            match skipWs r1 with
            | [] => none
            | c2 :: r2 =>
              if c2 = ':' then
                match pv r2 with
                | none => none
                | some (v, r3) =>
                  match skipWs r3 with
                  | [] => none
                  | c3 :: r4 =>
                    if c3 = ',' then
                      match prev.2.2 r4 with
                      | none => none
                      | some (kvs, r5) => some ((String.mk k, v) :: kvs, r5)
                    else if c3 = rbrace then some ([(String.mk k, v)], r4)
                    else none
              else none
        else none
    (pv, pi, pf)

/-- Scan one JSON value; `fuel` bounds the bracket-nesting and element
count (callers supply an amount sufficient for the input length). -/
def parseValue (fuel : Nat) (cs : List Char) : Option (Json × List Char) :=
  (parseStep fuel).1 cs

/-- Scan the items of a JSON array after the opening bracket. -/
def parseItems (fuel : Nat) (cs : List Char) : Option (List Json × List Char) :=
  (parseStep fuel).2.1 cs

/-- Scan the fields of a JSON object after the opening brace. -/
def parseFields (fuel : Nat) (cs : List Char) :
    Option (List (String × Json) × List Char) :=
  (parseStep fuel).2.2 cs

/-- The keyword `null` as printed. -/
def litNull : List Char := ['n', 'u', 'l', 'l']

/-- The keyword `true` as printed. -/
def litTrue : List Char := ['t', 'r', 'u', 'e']

/-- The keyword `false` as printed. -/
def litFalse : List Char := ['f', 'a', 'l', 's', 'e']

mutual

/-- Print a JSON value (the text `json.dumps` would produce, with
integer numbers and minimal string escaping). -/
def encJson : Json → List Char
  | .null => litNull
  | .bool true => litTrue
  | .bool false => litFalse
  | .num n => intChars n
  | .str s => '"' :: (escapeChars s.data ++ ['"'])
  | .arr items => '[' :: (encItems items ++ [']'])
  | .obj fields => lbrace :: (encFields fields ++ [rbrace])

/-- Print array items, comma separated. -/
def encItems : List Json → List Char
  | [] => []
  | [v] => encJson v
  | v :: vs => encJson v ++ ',' :: encItems vs

/-- Print object fields, comma separated. -/
def encFields : List (String × Json) → List Char
  | [] => []
  | [(k, v)] => '"' :: (escapeChars k.data ++ '"' :: ':' :: encJson v)
  | (k, v) :: kvs =>
    ('"' :: (escapeChars k.data ++ '"' :: ':' :: encJson v)) ++ ',' :: encFields kvs

end

/-- The UTF-8 JSON encoding of a value. -/
def jsonEncode (v : Json) : String := String.mk (encJson v)

mutual

/-- Fuel sufficient for scanning one printed value. -/
def jsize : Json → Nat
  | .null => 1
  | .bool _ => 1
  | .num _ => 1
  | .str _ => 1
  | .arr xs => 1 + jsizeItems xs
  | .obj kvs => 1 + jsizeFields kvs

/-- Fuel sufficient for scanning printed array items. -/
def jsizeItems : List Json → Nat
  | [] => 1
  | x :: xs => 1 + jsize x + jsizeItems xs

/-- Fuel sufficient for scanning printed object fields. -/
def jsizeFields : List (String × Json) → Nat
  | [] => 1
  | kv :: kvs => 1 + jsize kv.2 + jsizeFields kvs

end

/-- The next character (if any) cannot extend a digit run. -/
def headNotDigit : List Char → Bool
  | [] => true
  | c :: _ => !c.isDigit

/-- Model of `json.loads`: scan one value, requiring the whole input to be
consumed (up to trailing whitespace); `none` models a raised
`JSONDecodeError` (a `ValueError`). -/
def jsonParse (s : String) : Option Json :=
  match parseValue (2 * s.data.length + 2) s.data with
  | some (v, rest) => if skipWs rest = [] then some v else none
  | none => none

/-! ### Airflow state enumerations

From `airflow.utils.state.State` (the Airflow 1.10 line this plugin
targets).  `State.NONE` is Python `None`, hence the `Option`. -/

/-- `State.task_states`. -/
def task_states : List (Option String) :=
  [some "success", some "running", some "failed", some "upstream_failed",
   some "skipped", some "up_for_retry", some "up_for_reschedule",
   some "queued", none, some "scheduled"]

/-- `State.dag_states`. -/
def dag_states : List String := ["success", "running", "failed"]

/-- Python `state or "none"` (both `None` and the empty string are
falsy). -/
def normState : Option String → String
  | none => "none"
  | some s => if s = "" then "none" else s

/-! ### Python dictionaries as association lists -/

/-- Python `d.get(k)` / `d[k]` lookup on a dict modelled as an
association list in insertion order. -/
def alLookup {κ β : Type} [DecidableEq κ] (k : κ) : List (κ × β) → Option β
  | [] => none
  | kv :: rest => if kv.1 = k then some kv.2 else alLookup k rest

/-- Python `d[k] = v`: update the entry in place when the key is present,
append it otherwise. -/
def alSet {κ β : Type} [DecidableEq κ] (k : κ) (v : β) : List (κ × β) → List (κ × β)
  | [] => [(k, v)]
  | kv :: rest => if kv.1 = k then (kv.1, v) :: rest else kv :: alSet k v rest

/-- The `d.setdefault(key(r), init0); mutate` loop pattern of
`MetricsCollector.collect`: fold rows into a dict, creating the entry for
a fresh key with `init` and updating the existing entry with `upd`. -/
def dictFold {κ ρ ε : Type} [DecidableEq κ] (key : ρ → κ) (init : ρ → ε)
    (upd : ε → ρ → ε) (rows : List ρ) : List (κ × ε) :=
  rows.foldl (fun acc r =>
    match alLookup (key r) acc with
    | none => acc ++ [(key r, init r)]
    | some e => alSet (key r) (upd e r) acc) []

/-! ### Query layer (`prometheus_exporter.py`)

Each SQLAlchemy query becomes a function over `Db`.  `GROUP BY` is
rendered as: deduplicate the key tuples, then aggregate over the rows of
each group.  Inner joins are flat maps over the matching rows of the
joined table.  SQL `COUNT(col)` counts non-NULL values only; `MAX`/`MIN`
aggregate the non-NULL values of a group. -/

/-- `CANARY_DAG` constant. -/
def CANARY_DAG : String := "canary_dag"

/-- Result row of `get_dag_state_info`. -/
structure DagStateRow where
  dag_id : String
  state : Option String
  count : Nat
  owners : String
deriving DecidableEq

/-- `get_dag_state_info`: dag runs grouped by `(dag_id, state)` with
`COUNT(state)` (NULL states contribute groups of count 0, since SQL
`COUNT` skips NULLs), joined to the dag model, keeping only active,
unpaused dags. -/
def get_dag_state_info (db : Db) : List DagStateRow :=
  let keys := (db.dag_runs.map fun r => (r.dag_id, r.state)).dedup
  keys.flatMap fun k =>
    let grp := db.dag_runs.filter fun r => decide (r.dag_id = k.1 ∧ r.state = k.2)
    let cnt := (grp.filter fun r => r.state.isSome).length
    (db.dag_models.filter fun dm =>
        decide (dm.dag_id = k.1 ∧ dm.is_active = true ∧ dm.is_paused = false)).map fun dm =>
      ⟨k.1, k.2, cnt, dm.owners⟩

/-- Result row of `get_task_state_info`. -/
structure TaskStateRow where
  dag_id : String
  task_id : String
  state : Option String
  value : Nat
  owners : String
deriving DecidableEq

/-- `get_task_state_info`: task instances grouped by
`(dag_id, task_id, state)` with `COUNT(dag_id)` as `value`, joined to the
dag model, keeping only active, unpaused dags. -/
def get_task_state_info (db : Db) : List TaskStateRow :=
  let keys := (db.task_instances.map fun t => (t.dag_id, t.task_id, t.state)).dedup
  keys.flatMap fun k =>
    let v := (db.task_instances.filter fun t =>
      decide (t.dag_id = k.1 ∧ t.task_id = k.2.1 ∧ t.state = k.2.2)).length
    (db.dag_models.filter fun dm =>
      decide (dm.dag_id = k.1 ∧ dm.is_active = true ∧ dm.is_paused = false)).map fun dm =>
      ⟨k.1, k.2.1, k.2.2, v, dm.owners⟩

/-- Result row of `get_task_failure_counts`. -/
structure TaskFailCountRow where
  dag_id : String
  task_id : String
  count : Nat
deriving DecidableEq

/-- `get_task_failure_counts`: task-fail rows joined to active, unpaused
dag models, then grouped by `(dag_id, task_id)` with `COUNT(dag_id)`. -/
def get_task_failure_counts (db : Db) : List TaskFailCountRow :=
  let joined := db.task_fails.flatMap fun tf =>
    (db.dag_models.filter fun dm =>
      decide (dm.dag_id = tf.dag_id ∧ dm.is_active = true ∧ dm.is_paused = false)).map fun _ => tf
  let keys := (joined.map fun tf => (tf.dag_id, tf.task_id)).dedup
  keys.map fun k =>
    ⟨k.1, k.2, (joined.filter fun tf => decide (tf.dag_id = k.1 ∧ tf.task_id = k.2)).length⟩

/-- `get_xcom_params`: xcom rows joined to the per-dag maximum run
execution date (no dag-model filter at all in this query), optionally
restricted to one task id unless the requested id is `"all"`. -/
def get_xcom_params (task_id : String) (db : Db) : List XComRow :=
  let max_execution_dt_query : List (String × Int) :=
    (db.dag_runs.map (·.dag_id)).dedup.filterMap fun d =>
      (((db.dag_runs.filter fun r => decide (r.dag_id = d)).map
        (·.execution_date)).max?).map fun m => (d, m)
  let rows := db.xcoms.flatMap fun x =>
    (max_execution_dt_query.filter fun p =>
      decide (x.dag_id = p.1 ∧ x.execution_date = p.2)).map fun _ => x
  if task_id = "all" then rows
  else rows.filter fun x => decide (x.task_id = task_id)

/-- Result row of (the intended) `get_task_duration_info`. -/
structure TaskDurationRow where
  dag_id : String
  task_id : String
  start_date : Option Int
  end_date : Option Int
  execution_date : Int
deriving DecidableEq

/-- SQLAlchemy `and_(...)`: a `BooleanClauseList` column expression.  It
is not a `Query`: it exposes column-expression operations only. -/
inductive BooleanClauseList where
  | mk

/-- Python attribute lookup for `.filter` on a `BooleanClauseList`.
`filter` is a method of `Query` (and of aggregate `FunctionElement`s);
`sqlalchemy.sql.elements.BooleanClauseList` defines no such attribute, so
the lookup raises `AttributeError`. -/
def BooleanClauseList.filterLookup (_c : BooleanClauseList) : Except String Unit :=
  .error "AttributeError: BooleanClauseList object has no attribute filter"

/-- `get_task_duration_info`: the source builds three subqueries and then
returns

`session.query(...).join(TaskInstance, and_(...) .filter(...) .all())`

i.e. `.filter(...).all()` is chained onto the result of `and_(...)`
(inside the parenthesis of `join`), not onto the query.  Evaluating the
second `join` argument therefore raises `AttributeError` before any SQL
runs, on every call and for every database state. -/
def get_task_duration_info (state : String) (db : Db) :
    Except String (List TaskDurationRow) := do
  -- max_execution_dt_query: per active unpaused dag, the latest run
  -- execution date among runs in `state` (success additionally requires
  -- a non-null run end date)
  let joined_runs := db.dag_runs.flatMap fun r =>
    if decide (r.state = some state ∧ (state = "success" → r.end_date.isSome = true)) then
      (db.dag_models.filter fun dm =>
        decide (dm.dag_id = r.dag_id ∧ dm.is_active = true ∧ dm.is_paused = false)).map fun _ => r
    else []
  let _max_execution_dt_query : List (String × Int) :=
    (joined_runs.map (·.dag_id)).dedup.filterMap fun d =>
      (((joined_runs.filter fun r => decide (r.dag_id = d)).map
        (·.execution_date)).max?).map fun m => (d, m)
  -- task_duration_query: per (dag_id, task_id), the latest execution
  -- date among task instances in `state` with a non-null start date
  -- (success additionally requires a non-null end date)
  let eligible_tis := db.task_instances.filter fun t =>
    decide (t.state = some state ∧ t.start_date.isSome = true
      ∧ (state = "success" → t.end_date.isSome = true))
  let task_duration_query : List (String × String × Int) :=
    ((eligible_tis.map fun t => (t.dag_id, t.task_id)).dedup).filterMap fun k =>
      (((eligible_tis.filter fun t => decide (t.dag_id = k.1 ∧ t.task_id = k.2)).map
        (·.execution_date)).max?).map fun m => (k.1, k.2, m)
  -- task_latest_execution_dt: join the two on dag id and equal dates
  let _task_latest_execution_dt : List (String × String × Int) :=
    task_duration_query.flatMap fun k =>
      (_max_execution_dt_query.filter fun p =>
        decide (k.1 = p.1 ∧ k.2.2 = p.2)).map fun _ => k
  -- return session.query(...).join(TaskInstance, and_(...).filter(...).all())
  let _ ← BooleanClauseList.filterLookup .mk
  -- unreachable: the AttributeError above propagates out of the call
  .ok []

/-- Result row of `get_dag_duration_info`. -/
structure DagDurationRow where
  dag_id : String
  start_date : Int
  end_date : Option Int
deriving DecidableEq

/-- `get_dag_duration_info`: (1) per active unpaused dag, the latest run
execution date among runs in `state` (success also needs a non-null end
date); (2) the minimum non-null task-instance start date of that
(dag, execution date); (3) join back to `dag_run` for its end date.  The
final query's stray `TaskInstance` filter adds a cartesian product over
task instances with non-null start and end dates, duplicating rows but
adding none. -/
def get_dag_duration_info (state : String) (db : Db) : List DagDurationRow :=
  let joined_runs := db.dag_runs.flatMap fun r =>
    if decide (r.state = some state ∧ (state = "success" → r.end_date.isSome = true)) then
      (db.dag_models.filter fun dm =>
        decide (dm.dag_id = r.dag_id ∧ dm.is_active = true ∧ dm.is_paused = false)).map fun _ => r
    else []
  let max_execution_dt_query : List (String × Int) :=
    (joined_runs.map (·.dag_id)).dedup.filterMap fun d =>
      (((joined_runs.filter fun r => decide (r.dag_id = d)).map
        (·.execution_date)).max?).map fun m => (d, m)
  let dag_start_dt_query : List (String × Int × Int) :=
    max_execution_dt_query.filterMap fun p =>
      ((((db.task_instances.filter fun t =>
          decide (t.start_date.isSome = true ∧ t.dag_id = p.1
            ∧ t.execution_date = p.2)).filterMap (·.start_date)).min?)).map fun mn =>
        (p.1, p.2, mn)
  dag_start_dt_query.flatMap fun q =>
    (db.dag_runs.filter fun r =>
      decide (r.dag_id = q.1 ∧ r.execution_date = q.2.1)).flatMap fun r =>
      (db.task_instances.filter fun t =>
        decide (t.start_date.isSome = true ∧ t.end_date.isSome = true)).map fun _ =>
        ⟨q.1, q.2.2, r.end_date⟩

/-- Result row of `get_dag_scheduler_delay`. -/
structure DagSchedulerDelayRow where
  dag_id : String
  execution_date : Int
  start_date : Option Int
deriving DecidableEq

/-- `get_dag_scheduler_delay`: canary-dag runs ordered by execution date
descending, limit 1.  No filter on `start_date`, which stays nullable. -/
def get_dag_scheduler_delay (db : Db) : List DagSchedulerDelayRow :=
  let canary := db.dag_runs.filter fun r => decide (r.dag_id = CANARY_DAG)
  let top := canary.foldl (fun acc r =>
    match acc with
    | none => some r
    | some b => if decide (b.execution_date < r.execution_date) then some r else some b) none
  match top with
  | none => []
  | some r => [⟨r.dag_id, r.execution_date, r.start_date⟩]

/-- Result row of `get_task_scheduler_delay`. -/
structure TaskSchedulerDelayRow where
  queue : String
  execution_date : Int
  queued_dttm : Option Int
  start_date : Int
deriving DecidableEq

/-- `get_task_scheduler_delay`: per queue, the maximum start date among
canary task instances that have been queued (non-null `queued_dttm`);
joined back to the task instances with that `(queue, start_date)` for
their execution and queued timestamps.  A group whose start dates are all
NULL has a NULL maximum and matches no row in the join. -/
def get_task_scheduler_delay (db : Db) : List TaskSchedulerDelayRow :=
  let base := db.task_instances.filter fun t =>
    decide (t.dag_id = CANARY_DAG ∧ t.queued_dttm.isSome = true)
  let task_status_query : List (String × Int) :=
    (base.map (·.queue)).dedup.filterMap fun q =>
      (((base.filter fun t => decide (t.queue = q)).filterMap (·.start_date)).max?).map
        fun m => (q, m)
  task_status_query.flatMap fun p =>
    (db.task_instances.filter fun t =>
      decide (t.queue = p.1 ∧ t.start_date = some p.2 ∧ t.dag_id = CANARY_DAG)).map fun t =>
      ⟨p.1, t.execution_date, t.queued_dttm, p.2⟩

/-- `get_num_queued_tasks`: count of task instances in the `queued`
state; note there is no dag-model join, so paused and inactive dags are
counted too. -/
def get_num_queued_tasks (db : Db) : Nat :=
  (db.task_instances.filter fun t => decide (t.state = some "queued")).length

/-! ### External collaborators and the xcom config (`xcom_config.py`) -/

/-- Result of `pickle.loads`: a Python object that is `str`/`bytes` like
(whose text `json.loads` then scans) or any other object (on which
`json.loads` raises a `TypeError`). -/
inductive Unpickled where
  | text (s : String)
  | other

/-- A loaded YAML document (the shapes `load_xcom_config` consumers
touch).  `yaml.load` of an empty file yields Python `None` (`Yaml.null`),
on which `.get` raises `AttributeError`. -/
inductive Yaml where
  | null
  | str (s : String)
  | dict (entries : List (String × Yaml))
  | list (items : List Yaml)

/-- Python `cfg.get(k, dflt)`: only dicts have `.get`. -/
def Yaml.get (y : Yaml) (k : String) (dflt : Yaml) : Except String Yaml :=
  match y with
  | .dict es => .ok ((alLookup k es).getD dflt)
  | _ => .error "AttributeError: object has no attribute get"

/-- Iterating `for tasks in v`: only list documents iterate here. -/
def Yaml.asList : Yaml → Except String (List Yaml)
  | .list items => .ok items
  | _ => .error "TypeError: object is not iterable"

/-- Python `tasks[k]` on a config entry; config task ids are modelled as
strings. -/
def Yaml.getItem (y : Yaml) (k : String) : Except String String :=
  match y with
  | .dict es =>
    match alLookup k es with
    | some (.str s) => .ok s
    | some _ => .error "TypeError: task_id entry is not a string"
    | none => .error ("KeyError: " ++ k)
  | _ => .error "TypeError: object is not subscriptable"

/-- The environment of a collection pass: the behaviour of the external
collaborators (`pickle.loads`, `yaml.load`), the contents of
`config.yaml` at each of the two search paths (current working directory
first, then the module directory), and the
`core.enable_xcom_pickling` airflow setting. -/
structure CollectEnv where
  pickle_loads : String → Except String Unpickled
  yaml_load : String → Except String Yaml
  cwd_config : Option String
  module_config : Option String
  enable_xcom_pickling : Bool

/-- `load_xcom_config`: look for `config.yaml` in the working directory,
then next to the module; when neither exists return the empty dict; when
one exists parse it with `yaml.load`, catching only `FileNotFoundError`
(so a YAML parse error propagates to the caller). -/
def load_xcom_config (env : CollectEnv) : Except String Yaml :=
  match env.cwd_config.orElse (fun _ => env.module_config) with
  | none => .ok (.dict [])
  | some contents =>
    -- the `except FileNotFoundError: return ...` clause is unreachable
    -- here: the chosen path passed the `isfile` check, and `yaml.load`
    -- raises `YAMLError`s, never `FileNotFoundError`; a parse failure
    -- therefore propagates to the caller
    env.yaml_load contents

/-- Log line of the `json.loads` failure branch of
`extract_xcom_parameter` (without-pickling mode). -/
def xcomJsonLogMsg : String :=
  "Could not deserialize the XCOM value from JSON. If you are using pickles instead of JSON for XCOM, then you need to enable pickle support for XCOM in your airflow config."

/-- `extract_xcom_parameter`: deserialize one stored xcom blob, returning
the outcome (`.error` models a raised exception) together with the log
lines emitted.  With pickling enabled, `pickle.loads` runs OUTSIDE any
try block, so its failure raises; the following `json.loads` is guarded
by `except Exception`, silently (no log) yielding the empty dict.  With
pickling disabled, a decode `ValueError` (including `JSONDecodeError`) is
caught, logged, and yields the empty dict. -/
def extract_xcom_parameter (env : CollectEnv) (value : String) :
    Except String Json × List String :=
  if env.enable_xcom_pickling then
    match env.pickle_loads value with
    | .error e => (.error e, [])
    | .ok (.text s) =>
      match jsonParse s with
      | some j => (.ok j, [])
      | none => (.ok (.obj []), [])
    | .ok .other => (.ok (.obj []), [])
  else
    match jsonParse value with
    | some j => (.ok j, [])
    | none => (.ok (.obj []), [xcomJsonLogMsg])

/-! ### The collector (`MetricsCollector.collect`) -/

/-- A dynamic Python value handed to `add_metric` or stored in an
aggregation dict. -/
inductive PyVal where
  /-- a numeric value -/
  | num (n : Int)
  /-- a decoded xcom document -/
  | obj (j : Json)
  /-- the bound built-in `tuple.count` method of the result row `r`.  The
  task-state query labels its count column `value` (line 147), so the
  attribute access `task.count` at line 408 does not reach a column and
  resolves to the tuple method instead; a bound method is modelled by its
  receiver row. -/
  | countMethod (r : TaskStateRow)

/-- One exposition sample: label values plus the (dynamic) value handed
to `add_metric`. -/
structure Sample where
  labels : List String
  value : PyVal

/-- One `GaugeMetricFamily` as yielded by the collector. -/
structure Family where
  name : String
  samples : List Sample

/-- The per-uid entry of the `tasks_info_by_id` dict:
`{"meta": task, "state_count": {...}}`.  The values of `state_count` are
whatever line 408 stored — bound `tuple.count` methods, never
numbers. -/
structure TaskEntry where
  meta : TaskStateRow
  state_count : List (String × PyVal)

/-- The per-dag entry of the `dags_info_by_id` dict; here `dag.count` is
a genuine column (labelled `count` at line 46), so the stored values are
numbers. -/
structure DagEntry where
  meta : DagStateRow
  state_count : List (Option String × Nat)
deriving DecidableEq

/-- `task_uid = f"{dag_id}_{task_id}"` — the dict key used by `collect`
for task-state aggregation. -/
def taskUid (dag_id task_id : String) : String := dag_id ++ "_" ++ task_id

/-- The `tasks_info_by_id` dict: entries are created on first sight of a
uid (keeping that first row as `meta`) and `state_count[state or "none"]`
is assigned `task.count` — which is the row's bound tuple `count` method,
because the query labels the count column `value`, not `count`. -/
def tasks_info_by_id (rows : List TaskStateRow) : List (String × TaskEntry) :=
  dictFold (fun r => taskUid r.dag_id r.task_id)
    (fun r => ⟨r, [(normState r.state, .countMethod r)]⟩)
    (fun e r => ⟨e.meta, alSet (normState r.state) (.countMethod r) e.state_count⟩)
    rows

/-- The `airflow_task_status` samples: for every dict entry, one sample
per state of `State.task_states` (normalized through `or "none"`).
`state_count.get(state, 0)` returns the stored bound method for a
present state and the integer `0` for an absent one. -/
def taskStatusSamples (rows : List TaskStateRow) : List Sample :=
  (tasks_info_by_id rows).flatMap fun kv =>
    task_states.map fun s =>
      let s' := normState s
      ⟨[kv.2.meta.dag_id, kv.2.meta.task_id, kv.2.meta.owners, s'],
        (alLookup s' kv.2.state_count).getD (.num 0)⟩

/-- The `dags_info_by_id` dict: keyed by `dag_id`; the raw (possibly
NULL) state is used as the inner key, with no `or "none"`
normalization. -/
def dags_info_by_id (rows : List DagStateRow) : List (String × DagEntry) :=
  dictFold (fun r => r.dag_id)
    (fun r => ⟨r, [(r.state, r.count)]⟩)
    (fun e r => ⟨e.meta, alSet r.state r.count e.state_count⟩)
    rows

/-- The `airflow_dag_status` samples: for every dict entry, one sample
per state of `State.dag_states`, defaulting to count 0. -/
def dagStatusSamples (rows : List DagStateRow) : List Sample :=
  (dags_info_by_id rows).flatMap fun kv =>
    dag_states.map fun s =>
      ⟨[kv.2.meta.dag_id, kv.2.meta.owners, s],
        .num ((alLookup (some s) kv.2.state_count).getD 0)⟩

/-- `str(execution_date.date())` — the execution-date label; rendered
from the day number of the timestamp. -/
def dateLabel (execution_date : Int) : String := toString (execution_date / 86400)

/-- A `for row in rows: family.add_metric(...)` loop whose body may
raise: processed left to right, stopping at the first raised
exception. -/
def mapOrRaise {α β : Type} (f : α → Except String β) : List α → Except String (List β)
  | [] => .ok []
  | a :: as =>
    match f a with
    | .error e => .error e
    | .ok b =>
      match mapOrRaise f as with
      | .error e => .error e
      | .ok bs => .ok (b :: bs)

/-- The `airflow_task_duration` loop body: `utc_now - start_date` per
row; subtraction against a NULL start date raises `TypeError`. -/
def taskDurationSamples (utc_now : Int) (rows : List TaskDurationRow) :
    Except String (List Sample) :=
  mapOrRaise (fun t =>
    match t.start_date with
    | some s =>
      .ok ⟨[t.task_id, t.dag_id, dateLabel t.execution_date], .num (utc_now - s)⟩
    | none => .error "TypeError: unsupported operand types for datetime subtraction") rows

/-- The `airflow_last_task_success_time` loop body: `utc_now - end_date`
per row. -/
def lastTaskSuccessSamples (utc_now : Int) (rows : List TaskDurationRow) :
    Except String (List Sample) :=
  mapOrRaise (fun t =>
    match t.end_date with
    | some e =>
      .ok ⟨[t.task_id, t.dag_id, dateLabel t.execution_date], .num (utc_now - e)⟩
    | none => .error "TypeError: unsupported operand types for datetime subtraction") rows

/-- The `airflow_dag_run_duration` loop body: `utc_now - start_date` per
row (the query yields a non-null start date by construction). -/
def dagDurationSamples (utc_now : Int) (rows : List DagDurationRow) : List Sample :=
  rows.map fun d => ⟨[d.dag_id], .num (utc_now - d.start_date)⟩

/-- The `airflow_last_dag_success_time` loop body: `utc_now - end_date`
per row. -/
def lastDagSuccessSamples (utc_now : Int) (rows : List DagDurationRow) :
    Except String (List Sample) :=
  mapOrRaise (fun d =>
    match d.end_date with
    | some e => .ok ⟨[d.dag_id], .num (utc_now - e)⟩
    | none => .error "TypeError: unsupported operand types for datetime subtraction") rows

/-- The `airflow_task_fail_count` loop body. -/
def taskFailureSamples (rows : List TaskFailCountRow) : List Sample :=
  rows.map fun r => ⟨[r.dag_id, r.task_id], .num r.count⟩

/-- The `airflow_dag_scheduler_delay` loop body:
`start_date - execution_date` per row; the start date is nullable and
unchecked, so a NULL raises `TypeError` instead of being skipped. -/
def dagSchedulerDelaySamples (rows : List DagSchedulerDelayRow) :
    Except String (List Sample) :=
  mapOrRaise (fun d =>
    match d.start_date with
    | some s => .ok ⟨[d.dag_id], .num (s - d.execution_date)⟩
    | none => .error "TypeError: unsupported operand types for datetime subtraction") rows

/-- The `airflow_task_scheduler_delay` loop body:
`start_date - queued_dttm` per row; the joined row's `queued_dttm` is
nullable and unchecked. -/
def taskSchedulerDelaySamples (rows : List TaskSchedulerDelayRow) :
    Except String (List Sample) :=
  mapOrRaise (fun t =>
    match t.queued_dttm with
    | some q => .ok ⟨[t.queue], .num (t.start_date - q)⟩
    | none => .error "TypeError: unsupported operand types for datetime subtraction") rows

/-- The `airflow_xcom_parameter` family: load the config, iterate its
`xcom_params` entries (defaulting to the empty list), query the xcom rows
of each configured task id and decode each blob. -/
def xcomSamples (env : CollectEnv) (db : Db) : Except String (List Sample) :=
  match load_xcom_config env with
  | .error e => .error e
  | .ok cfg =>
  match cfg.get "xcom_params" (.list []) with
  | .error e => .error e
  | .ok v =>
  match v.asList with
  | .error e => .error e
  | .ok params =>
  Except.map List.flatten
    (mapOrRaise (fun tasks =>
      match tasks.getItem "task_id" with
      | .error e => .error e
      | .ok tid =>
        mapOrRaise (fun p =>
          match (extract_xcom_parameter env p.value).1 with
          | .error e => .error e
          | .ok xv => .ok (⟨[p.dag_id, p.task_id, p.key], .obj xv⟩ : Sample))
          (get_xcom_params tid db)) params)

/-- The eleven metric-family steps of one collection pass, in source
order; each step is the family the generator would yield, or the
exception its query or loop raises. -/
def collectSteps (env : CollectEnv) (db : Db) (utc_now : Int) :
    List (Except String Family) :=
  [.ok ⟨"airflow_task_status", taskStatusSamples (get_task_state_info db)⟩,
   (get_task_duration_info "running" db).bind fun rows =>
     (taskDurationSamples utc_now rows).map fun ss => ⟨"airflow_task_duration", ss⟩,
   (get_task_duration_info "success" db).bind fun rows =>
     (lastTaskSuccessSamples utc_now rows).map fun ss =>
       ⟨"airflow_last_task_success_time", ss⟩,
   .ok ⟨"airflow_task_fail_count", taskFailureSamples (get_task_failure_counts db)⟩,
   .ok ⟨"airflow_dag_status", dagStatusSamples (get_dag_state_info db)⟩,
   .ok ⟨"airflow_dag_run_duration",
     dagDurationSamples utc_now (get_dag_duration_info "running" db)⟩,
   (lastDagSuccessSamples utc_now (get_dag_duration_info "success" db)).map fun ss =>
     ⟨"airflow_last_dag_success_time", ss⟩,
   (dagSchedulerDelaySamples (get_dag_scheduler_delay db)).map fun ss =>
     ⟨"airflow_dag_scheduler_delay", ss⟩,
   (xcomSamples env db).map fun ss => ⟨"airflow_xcom_parameter", ss⟩,
   (taskSchedulerDelaySamples (get_task_scheduler_delay db)).map fun ss =>
     ⟨"airflow_task_scheduler_delay", ss⟩,
   .ok ⟨"airflow_num_queued_tasks", [⟨[], .num (get_num_queued_tasks db)⟩]⟩]

/-- Run generator steps: families yielded before the first raised
exception, plus that exception if any.  (The prometheus registry iterates
the generator; an exception mid-iteration leaves only the earlier
families yielded.) -/
def runFamilies : List (Except String Family) → List Family × Option String
  | [] => ([], none)
  | .error e :: _ => ([], some e)
  | .ok f :: rest =>
    let r := runFamilies rest
    (f :: r.1, r.2)

/-- `MetricsCollector.collect`: one collection pass over the database at
reference instant `utc_now` (captured once by `timezone.utcnow()` at the
top of `collect` and shared by every family of the pass). -/
def collect (env : CollectEnv) (db : Db) (utc_now : Int) :
    List Family × Option String :=
  runFamilies (collectSteps env db utc_now)

/-- The samples of a four-label status family whose first two label
values (dag id, task id) are the given pair. -/
def samplesFor2 (fam : List Sample) (d t : String) : List Sample :=
  fam.filter fun s => decide (s.labels.take 2 = [d, t])

/-- The samples of a three-label status family whose first label value
(dag id) is the given one. -/
def samplesFor1 (fam : List Sample) (d : String) : List Sample :=
  fam.filter fun s => decide (s.labels.take 1 = [d])

/-- The numeric value of a sample (0 for non-numeric values). -/
def sampleNum : Sample → Int
  | ⟨_, .num n⟩ => n
  | _ => 0

/-- Sum of the numeric values of a list of samples. -/
def sumValues (l : List Sample) : Int := (l.map sampleNum).sum

/-- Hypotheses under which the status aggregation is well behaved at dag
`d` and task `t`: `dm` is a dag-model row for `d`, active and unpaused;
dag-model rows are duplicate-free and keyed by dag id; distinct
(dag id, task id) pairs have distinct concatenated uids (no
`f"{dag_id}_{task_id}"` collision); every task-instance state is a
defined task state and every run state a defined dag state; and the pair
and the dag each occur in at least one row. -/
def StatusHyps (db : Db) (dm : DagModelRow) (d t : String) : Prop :=
  dm ∈ db.dag_models ∧ dm.dag_id = d ∧ dm.is_active = true ∧ dm.is_paused = false
  ∧ db.dag_models.Nodup
  ∧ (∀ dm1 ∈ db.dag_models, ∀ dm2 ∈ db.dag_models, dm1.dag_id = dm2.dag_id → dm1 = dm2)
  ∧ (∀ t1 ∈ db.task_instances, ∀ t2 ∈ db.task_instances,
      taskUid t1.dag_id t1.task_id = taskUid t2.dag_id t2.task_id →
      t1.dag_id = t2.dag_id ∧ t1.task_id = t2.task_id)
  ∧ (∀ ti ∈ db.task_instances, ti.state ∈ task_states)
  ∧ (∀ r ∈ db.dag_runs, ∃ s ∈ dag_states, r.state = some s)
  ∧ (∃ ti ∈ db.task_instances, ti.dag_id = d ∧ ti.task_id = t)
  ∧ (∃ r ∈ db.dag_runs, r.dag_id = d)

/-- The group keys of `get_task_state_info`: the distinct
`(dag_id, task_id, state)` triples of the task instances. -/
def taskKeys (db : Db) : List (String × String × Option String) :=
  (db.task_instances.map fun ti => (ti.dag_id, ti.task_id, ti.state)).dedup

/-- The result row `get_task_state_info` produces for the dag-model row
`dmr` at group key `k`. -/
def taskQueryRow (db : Db) (dmr : DagModelRow) (k : String × String × Option String) :
    TaskStateRow :=
  ⟨k.1, k.2.1, k.2.2,
    (db.task_instances.filter fun ti =>
      decide (ti.dag_id = k.1 ∧ ti.task_id = k.2.1 ∧ ti.state = k.2.2)).length,
    dmr.owners⟩

/-- The group keys of `get_dag_state_info`: the distinct
`(dag_id, state)` pairs of the dag runs. -/
def dagKeys (db : Db) : List (String × Option String) :=
  (db.dag_runs.map fun r => (r.dag_id, r.state)).dedup

/-- The result row `get_dag_state_info` produces for the dag-model row
`dmr` at group key `k`. -/
def dagQueryRow (db : Db) (dmr : DagModelRow) (k : String × Option String) : DagStateRow :=
  ⟨k.1, k.2,
    ((db.dag_runs.filter fun r => decide (r.dag_id = k.1 ∧ r.state = k.2)).filter
      (fun r => r.state.isSome)).length,
    dmr.owners⟩

/-! ### Concrete example inputs used by witnesses and counterexamples -/

/-- Two active, unpaused dags whose dag and task ids concatenate to the
same uid `a_b_c`. -/
def exCollideDb : Db :=
  ⟨[⟨"a_b", "c", some "success", none, none, 0, "default", none⟩,
    ⟨"a", "b_c", some "running", none, none, 0, "default", none⟩],
   [],
   [⟨"a_b", "owner1", true, false⟩, ⟨"a", "owner2", true, false⟩],
   [], []⟩

/-- One active dag with one NULL-state run. -/
def exNullStateDb : Db :=
  ⟨[], [⟨"d", none, 5, none, none⟩], [⟨"d", "owner", true, false⟩], [], []⟩

/-- A paused dag with a queued task instance and an xcom row on its
latest run. -/
def exPausedDb : Db :=
  ⟨[⟨"p", "t", some "queued", none, none, 0, "default", none⟩],
   [⟨"p", some "success", 7, some 1, some 2⟩],
   [⟨"p", "owner", true, true⟩],
   [],
   [⟨"p", "t", "k", 7, "1"⟩]⟩

/-- A canary-dag run whose start date is NULL. -/
def exNullStartDb : Db :=
  ⟨[], [⟨"canary_dag", some "running", 100, none, none⟩], [], [], []⟩

/-- A well-behaved database: one active dag `etl` with task instances in
defined states (one with a NULL state) and runs in defined dag states. -/
def exGoodDb : Db :=
  ⟨[⟨"etl", "load", some "success", some 10, some 20, 100, "default", some 5⟩,
    ⟨"etl", "load", some "success", some 11, some 21, 200, "default", some 6⟩,
    ⟨"etl", "load", some "running", some 12, none, 300, "default", some 7⟩,
    ⟨"etl", "load", none, none, none, 400, "default", none⟩],
   [⟨"etl", some "success", 100, some 1, some 2⟩,
    ⟨"etl", some "running", 200, some 3, none⟩],
   [⟨"etl", "alice", true, false⟩],
   [], []⟩

/-- Benign environment: no config file anywhere, pickling disabled;
`pickle.loads` rejects everything and `yaml.load` yields `None`. -/
def exEnv : CollectEnv :=
  ⟨fun _ => .error "UnpicklingError: invalid load key", fun _ => .ok .null,
   none, none, false⟩

/-- Environment with a malformed `config.yaml` in the working
directory. -/
def exBadYamlEnv : CollectEnv :=
  ⟨fun _ => .error "UnpicklingError: invalid load key",
   fun s => if s = "][" then .error "ScannerError: while scanning a flow node"
     else .ok .null,
   some "][", none, false⟩

/-- Environment with pickling enabled: `pickle.loads` fails on the blob
`notapickle` and unpickles the blob `px` to the non-JSON text `x]`. -/
def exPickleEnv : CollectEnv :=
  ⟨fun b =>
     if b = "notapickle" then .error "UnpicklingError: invalid load key"
     else if b = "px" then .ok (.text "x]")
     else .ok .other,
   fun _ => .ok .null, none, none, true⟩

/-! ### Helper lemmas -/

/-! #### Character and digit facts -/

/-- Digit characters have code points between 48 and 57. -/
theorem toNat_bounds_of_isDigit (c : Char) (h : c.isDigit = true) :
    48 ≤ c.toNat ∧ c.toNat ≤ 57 := by
  simp [Char.isDigit] at h
  exact h

/-- A digit is not JSON whitespace. -/
theorem isJsonWs_eq_false_of_isDigit (c : Char) (h : c.isDigit = true) :
    isJsonWs c = false := by
  obtain ⟨h1, h2⟩ := toNat_bounds_of_isDigit c h
  cases hws : isJsonWs c with
  | false => rfl
  | true =>
    exfalso
    simp [isJsonWs] at hws
    rcases hws with ((rfl | rfl) | rfl) | rfl <;> exact absurd h (by decide)

/-- `skipWs` leaves a non-whitespace head alone. -/
theorem skipWs_cons_of_not_ws {c : Char} (cs : List Char) (h : isJsonWs c = false) :
    skipWs (c :: cs) = c :: cs := by
  simp [skipWs, h]

/-- `digitCharOf` produces a digit. -/
theorem digitCharOf_isDigit (n : Nat) (h : n < 10) :
    (digitCharOf n).isDigit = true := by
  interval_cases n <;> decide

/-- `digitVal` inverts `digitCharOf` below 10. -/
theorem digitVal_digitCharOf (n : Nat) (h : n < 10) :
    digitVal (digitCharOf n) = n := by
  interval_cases n <;> decide

/-- `hexCharOf` produces a hex digit. -/
theorem hexCharOf_isHexChar (n : Nat) (h : n < 16) :
    isHexChar (hexCharOf n) = true := by
  interval_cases n <;> decide

/-- `hexVal` inverts `hexCharOf` below 16. -/
theorem hexVal_hexCharOf (n : Nat) (h : n < 16) :
    hexVal (hexCharOf n) = n := by
  interval_cases n <;> decide

/-! #### Decimal printing round trip -/

/-- `natChars` is never empty. -/
theorem natChars_ne_nil (n : Nat) : natChars n ≠ [] := by
  rw [natChars]
  split
  · simp
  · simp

/-- Every character of `natChars` is a digit. -/
theorem natChars_all_digits (n : Nat) : ∀ c ∈ natChars n, c.isDigit = true := by
  induction n using Nat.strong_induction_on with
  | _ n ih =>
    rw [natChars]
    split
    · next h =>
      intro c hc
      simp at hc
      subst hc
      exact digitCharOf_isDigit n h
    · next h =>
      intro c hc
      rcases List.mem_append.mp hc with h' | h'
      · exact ih (n / 10) (Nat.div_lt_self (by omega) (by omega)) c h'
      · simp at h'
        subst h'
        exact digitCharOf_isDigit (n % 10) (Nat.mod_lt _ (by omega))

/-- Folding the decimal accumulator over `natChars n` from `a` yields
`a * 10 ^ digits + n`. -/
theorem natChars_foldl (n : Nat) : ∀ a : Nat,
    (natChars n).foldl (fun a c => a * 10 + digitVal c) a
      = a * 10 ^ (natChars n).length + n := by
  induction n using Nat.strong_induction_on with
  | _ n ih =>
    intro a
    rw [natChars]
    split
    · next h =>
      simp [digitVal_digitCharOf n h]
    · next h =>
      rw [List.foldl_append, ih (n / 10) (Nat.div_lt_self (by omega) (by omega)) a]
      simp only [List.foldl_cons, List.foldl_nil, List.length_append,
        List.length_singleton]
      rw [digitVal_digitCharOf (n % 10) (Nat.mod_lt _ (by omega))]
      calc (a * 10 ^ (natChars (n / 10)).length + n / 10) * 10 + n % 10
          = a * (10 ^ (natChars (n / 10)).length * 10) + (10 * (n / 10) + n % 10) := by
            ring
        _ = a * 10 ^ ((natChars (n / 10)).length + 1) + n := by
            rw [← pow_succ]
            congr 1
            omega

/-- `natFromDigits` inverts `natChars`. -/
theorem natFromDigits_natChars (n : Nat) : natFromDigits (natChars n) = n := by
  have := natChars_foldl n 0
  simpa [natFromDigits] using this

/-- `takeDigits` splits a digit run followed by a non-digit exactly. -/
theorem takeDigits_append (ds rest : List Char) (hds : ∀ c ∈ ds, c.isDigit = true)
    (hrest : headNotDigit rest = true) :
    takeDigits (ds ++ rest) = (ds, rest) := by
  induction ds with
  | nil =>
    cases rest with
    | nil => rfl
    | cons c cs =>
      simp [headNotDigit] at hrest
      simp [takeDigits, hrest]
  | cons c cs ih =>
    have hc : c.isDigit = true := hds c (List.mem_cons_self _ _)
    have ih' := ih fun x hx => hds x (List.mem_cons_of_mem _ hx)
    simp [takeDigits, hc, ih']

/-! #### String escaping round trip -/

/-- `scanStr` inverts `escapeChars` up to the closing quote. -/
theorem scanStr_escapeChars (l : List Char) (rest : List Char) :
    scanStr (escapeChars l ++ '"' :: rest) = some (l, rest) := by
  induction l with
  | nil =>
    show scanStr ('"' :: rest) = some ([], rest)
    rw [scanStr.eq_def]
    simp
  | cons c cs ih =>
    have hl : escapeChars (c :: cs) ++ '"' :: rest
        = escapeChar c ++ (escapeChars cs ++ '"' :: rest) := by
      simp [escapeChars]
    rw [hl]
    by_cases hq : c = '"'
    · subst hq
      rw [show escapeChar '"' = ['\\', '"'] from rfl]
      simp only [List.cons_append, List.nil_append]
      rw [scanStr.eq_def]
      simp [ih]
    · by_cases hb : c = '\\'
      · subst hb
        rw [show escapeChar '\\' = ['\\', '\\'] from rfl]
        simp only [List.cons_append, List.nil_append]
        rw [scanStr.eq_def]
        simp [ih]
      · by_cases hctl : c.toNat < 32
        · have hx1 := hexCharOf_isHexChar (c.toNat / 16) (by omega)
          have hx2 := hexCharOf_isHexChar (c.toNat % 16) (by omega)
          have hv1 := hexVal_hexCharOf (c.toNat / 16) (by omega)
          have hv2 := hexVal_hexCharOf (c.toNat % 16) (by omega)
          have h00 : isHexChar '0' = true := by decide
          have harith :
              ((hexVal '0' * 16 + hexVal '0') * 16 + hexVal (hexCharOf (c.toNat / 16))) * 16
                  + hexVal (hexCharOf (c.toNat % 16)) = c.toNat := by
            rw [hv1, hv2]
            have h0 : hexVal '0' = 0 := by decide
            rw [h0]
            omega
          rw [show escapeChar c = ['\\', 'u', '0', '0', hexCharOf (c.toNat / 16),
              hexCharOf (c.toNat % 16)] from by simp [escapeChar, hq, hb, hctl]]
          simp only [List.cons_append, List.nil_append]
          rw [scanStr.eq_def]
          simp [h00, hx1, hx2, harith, Char.ofNat_toNat, ih]
        · rw [show escapeChar c = [c] from by simp [escapeChar, hq, hb, hctl]]
          simp only [List.cons_append, List.nil_append]
          rw [scanStr.eq_def]
          simp [hq, hb, ih]

/-- The final query build of `get_task_duration_info` evaluates
`and_(...).filter(...)` and therefore raises, regardless of the state
argument and of the database. -/
theorem get_task_duration_info_eq_error (state : String) (db : Db) :
    get_task_duration_info state db =
      .error "AttributeError: BooleanClauseList object has no attribute filter" := rfl

/-- A loop body that succeeds with `g a` exactly on rows satisfying `p`
and raises otherwise: the loop succeeds precisely when every row
satisfies `p`, in which case it maps `g` over the rows (nothing is
skipped). -/
theorem mapOrRaise_ok_pointwise {α β : Type} (f : α → Except String β)
    (g : α → β) (p : α → Bool)
    (hf : ∀ a, (p a = true → f a = .ok (g a)) ∧ (p a = false → ∃ e, f a = .error e)) :
    ∀ (l : List α) (bs : List β), mapOrRaise f l = .ok bs →
      (∀ a ∈ l, p a = true) ∧ bs = l.map g
  | [], bs, h => by
    rw [mapOrRaise] at h
    simp only [Except.ok.injEq] at h
    refine ⟨?_, by simp [← h]⟩
    intro a ha
    cases ha
  | a :: as, bs, h => by
    cases hpa : p a with
    | false =>
      obtain ⟨e, he⟩ := (hf a).2 hpa
      rw [mapOrRaise, he] at h
      exact absurd h (by simp)
    | true =>
      cases hrest : mapOrRaise f as with
      | error e =>
        rw [mapOrRaise, (hf a).1 hpa, hrest] at h
        exact absurd h (by simp)
      | ok bs' =>
        rw [mapOrRaise, (hf a).1 hpa, hrest] at h
        simp only [Except.ok.injEq] at h
        obtain ⟨ih1, ih2⟩ := mapOrRaise_ok_pointwise f g p hf as bs' hrest
        refine ⟨?_, by simp [← h, ih2]⟩
        intro x hx
        rcases List.mem_cons.mp hx with h' | h'
        · subst h'; exact hpa
        · exact ih1 x h'

/-! #### Scanner unfolding equations and the printing round trip -/

/-- Unfolding of the value scanner at positive fuel. -/
theorem parseValue_succ (f : Nat) (cs : List Char) :
    parseValue (f + 1) cs =
      match skipWs cs with
      | [] => none
      | c :: r =>
        if c.isDigit then
          some (.num (natFromDigits (takeDigits (c :: r)).1 : Int), (takeDigits (c :: r)).2)
        else if c = '-' then
          if (takeDigits r).1 = [] then none
          else some (.num (-(natFromDigits (takeDigits r).1 : Int)), (takeDigits r).2)
        else if c = '"' then
          (scanStr r).map fun p => (.str (String.mk p.1), p.2)
        else if c = '[' then
          (parseItems f r).map fun p => (.arr p.1, p.2)
        else if c = lbrace then
          (parseFields f r).map fun p => (.obj p.1, p.2)
        else if c = 'n' then
          if r.take 3 = ['u', 'l', 'l'] then some (.null, r.drop 3) else none
        else if c = 't' then
          if r.take 3 = ['r', 'u', 'e'] then some (.bool true, r.drop 3) else none
        else if c = 'f' then
          if r.take 4 = ['a', 'l', 's', 'e'] then some (.bool false, r.drop 4) else none
        else none := rfl

/-- Unfolding of the array-items scanner at positive fuel. -/
theorem parseItems_succ (f : Nat) (cs : List Char) :
    parseItems (f + 1) cs =
      match skipWs cs with
      | [] => none
      | c :: r =>
        if c = ']' then some ([], r)
        else
          match parseValue (f + 1) (c :: r) with
          | none => none
          | some (v, r1) =>
            match skipWs r1 with
            | [] => none
            | c2 :: r2 =>
              if c2 = ',' then
                match parseItems f r2 with
                | none => none
                | some (vs, r3) => some (v :: vs, r3)
              else if c2 = ']' then some ([v], r2)
              else none := rfl

/-- Unfolding of the object-fields scanner at positive fuel. -/
theorem parseFields_succ (f : Nat) (cs : List Char) :
    parseFields (f + 1) cs =
      match skipWs cs with
      | [] => none
      | c :: r =>
        if c = rbrace then some ([], r)
        else if c = '"' then
          match scanStr r with
          | none => none
          | some (k, r1) =>
            match skipWs r1 with
            | [] => none
            | c2 :: r2 =>
              if c2 = ':' then
                match parseValue (f + 1) r2 with
                | none => none
                | some (v, r3) =>
                  match skipWs r3 with
                  | [] => none
                  | c3 :: r4 =>
                    if c3 = ',' then
                      match parseFields f r4 with
                      | none => none
                      | some (kvs, r5) => some ((String.mk k, v) :: kvs, r5)
                    else if c3 = rbrace then some ([(String.mk k, v)], r4)
                    else none
              else none
        else none := rfl

/-- `jsize` is positive. -/
theorem jsize_pos (v : Json) : 1 ≤ jsize v := by
  cases v <;> simp [jsize]

/-- `jsizeItems` is positive. -/
theorem jsizeItems_pos (xs : List Json) : 1 ≤ jsizeItems xs := by
  cases xs <;> simp [jsizeItems] <;> omega

/-- `jsizeFields` is positive. -/
theorem jsizeFields_pos (kvs : List (String × Json)) : 1 ≤ jsizeFields kvs := by
  cases kvs <;> simp [jsizeFields] <;> omega

/-- Rebuilding a string from its characters is the identity. -/
theorem stringMk_data (s : String) : String.mk s.data = s := rfl

/-- The first character of a printed value: it exists, is not whitespace,
and is none of the structural delimiters a surrounding scanner tests
for. -/
theorem encJson_head (v : Json) : ∃ c cs', encJson v = c :: cs'
    ∧ isJsonWs c = false ∧ c ≠ ']' ∧ c ≠ rbrace ∧ c ≠ ',' := by
  cases v with
  | null => exact ⟨'n', _, rfl, by decide, by decide, by decide, by decide⟩
  | bool b =>
    cases b
    · exact ⟨'f', _, rfl, by decide, by decide, by decide, by decide⟩
    · exact ⟨'t', _, rfl, by decide, by decide, by decide, by decide⟩
  | str s => exact ⟨'"', _, rfl, by decide, by decide, by decide, by decide⟩
  | arr xs => exact ⟨'[', _, rfl, by decide, by decide, by decide, by decide⟩
  | obj kvs => exact ⟨lbrace, _, rfl, by decide, by decide, by decide, by decide⟩
  | num n =>
    show ∃ c cs', intChars n = c :: cs' ∧ _
    rw [intChars]
    by_cases hneg : n < 0
    · rw [if_pos hneg]
      exact ⟨'-', _, rfl, by decide, by decide, by decide, by decide⟩
    · rw [if_neg hneg]
      obtain ⟨c, cs', hc⟩ := List.exists_cons_of_ne_nil (natChars_ne_nil n.toNat)
      have hd : c.isDigit = true :=
        natChars_all_digits n.toNat c (by rw [hc]; exact List.mem_cons_self _ _)
      have hbounds := toNat_bounds_of_isDigit c hd
      refine ⟨c, cs', hc, isJsonWs_eq_false_of_isDigit c hd, ?_, ?_, ?_⟩ <;>
        · intro hcEq
          subst hcEq
          exact absurd hd (by decide)

mutual

/-- The value scanner inverts the printer, leaving any suffix whose head
cannot extend a digit run. -/
theorem parseValue_enc (v : Json) (f : Nat) (rest : List Char)
    (hf : jsize v ≤ f + 1) (hrest : headNotDigit rest = true) :
    parseValue (f + 1) (encJson v ++ rest) = some (v, rest) := by
  cases v with
  | null =>
    have he : encJson .null ++ rest = 'n' :: 'u' :: 'l' :: 'l' :: rest := by
      simp [encJson, litNull]
    rw [parseValue_succ, he, skipWs_cons_of_not_ws _ (by decide)]
    simp [lbrace]
  | bool b =>
    cases b with
    | false =>
      have he : encJson (.bool false) ++ rest = 'f' :: 'a' :: 'l' :: 's' :: 'e' :: rest := by
        simp [encJson, litFalse]
      rw [parseValue_succ, he, skipWs_cons_of_not_ws _ (by decide)]
      simp [lbrace]
    | true =>
      have he : encJson (.bool true) ++ rest = 't' :: 'r' :: 'u' :: 'e' :: rest := by
        simp [encJson, litTrue]
      rw [parseValue_succ, he, skipWs_cons_of_not_ws _ (by decide)]
      simp [lbrace]
  | str s =>
    have he : encJson (.str s) ++ rest = '"' :: (escapeChars s.data ++ '"' :: rest) := by
      simp [encJson]
    rw [parseValue_succ, he, skipWs_cons_of_not_ws _ (by decide)]
    simp [lbrace, scanStr_escapeChars, stringMk_data]
  | num n =>
    by_cases hneg : n < 0
    · have he : encJson (.num n) ++ rest = '-' :: (natChars (-n).toNat ++ rest) := by
        simp [encJson, intChars, hneg]
      have h1 : (((-n).toNat : Nat) : Int) = -n := Int.toNat_of_nonneg (by omega)
      rw [parseValue_succ, he, skipWs_cons_of_not_ws _ (by decide)]
      simp only [takeDigits_append _ _ (natChars_all_digits _) hrest]
      simp [natChars_ne_nil, natFromDigits_natChars, lbrace, h1]
    · have he : encJson (.num n) ++ rest = natChars n.toNat ++ rest := by
        simp [encJson, intChars, hneg]
      obtain ⟨c, cs', hc⟩ := List.exists_cons_of_ne_nil (natChars_ne_nil n.toNat)
      have hcd : c.isDigit = true :=
        natChars_all_digits n.toNat c (by rw [hc]; exact List.mem_cons_self _ _)
      have h1 : ((n.toNat : Nat) : Int) = n := Int.toNat_of_nonneg (by omega)
      rw [parseValue_succ, he, hc, List.cons_append,
        skipWs_cons_of_not_ws _ (isJsonWs_eq_false_of_isDigit c hcd)]
      have htd : takeDigits (c :: (cs' ++ rest)) = (natChars n.toNat, rest) := by
        rw [show c :: (cs' ++ rest) = natChars n.toNat ++ rest from by rw [hc]; simp,
          takeDigits_append _ _ (natChars_all_digits _) hrest]
      simp [hcd, htd, natFromDigits_natChars, h1]
  | arr xs =>
    have he : encJson (.arr xs) ++ rest = '[' :: (encItems xs ++ ']' :: rest) := by
      simp [encJson]
    have hle : jsizeItems xs ≤ f := by
      have h : 1 + jsizeItems xs ≤ f + 1 := by simpa [jsize] using hf
      omega
    have hpos := jsizeItems_pos xs
    cases f with
    | zero => omega
    | succ f' =>
      have hitems := parseItems_enc xs f' rest (by omega)
      rw [parseValue_succ, he, skipWs_cons_of_not_ws _ (by decide)]
      simp [lbrace, hitems]
  | obj kvs =>
    have he : encJson (.obj kvs) ++ rest = lbrace :: (encFields kvs ++ rbrace :: rest) := by
      simp [encJson]
    have hle : jsizeFields kvs ≤ f := by
      have h : 1 + jsizeFields kvs ≤ f + 1 := by simpa [jsize] using hf
      omega
    have hpos := jsizeFields_pos kvs
    cases f with
    | zero => omega
    | succ f' =>
      have hfields := parseFields_enc kvs f' rest (by omega)
      have d1 : lbrace.isDigit = false := by decide
      have d2 : ¬(lbrace = '-') := by decide
      have d3 : ¬(lbrace = '"') := by decide
      have d4 : ¬(lbrace = '[') := by decide
      rw [parseValue_succ, he, skipWs_cons_of_not_ws _ (by decide)]
      simp [d1, d2, d3, d4, hfields]
termination_by sizeOf v
decreasing_by all_goals (subst_vars; first | omega | (simp; omega) | simp)

/-- The array-items scanner inverts the printer. -/
theorem parseItems_enc (xs : List Json) (f : Nat) (rest : List Char)
    (hf : jsizeItems xs ≤ f + 1) :
    parseItems (f + 1) (encItems xs ++ ']' :: rest) = some (xs, rest) := by
  cases xs with
  | nil =>
    have he : encItems [] ++ ']' :: rest = ']' :: rest := by simp [encItems]
    rw [parseItems_succ, he, skipWs_cons_of_not_ws _ (by decide)]
    simp
  | cons x xs' =>
    obtain ⟨c, cs', hc, hws, hbr, hrb, hcm⟩ := encJson_head x
    have hsz := jsize_pos x
    cases xs' with
    | nil =>
      have he : encItems [x] ++ ']' :: rest = encJson x ++ ']' :: rest := by
        simp [encItems]
      have hval := parseValue_enc x f (']' :: rest)
        (by have : 1 + jsize x + 1 ≤ f + 1 := by simpa [jsizeItems] using hf
            omega)
        (by rfl)
      have hrec : c :: (cs' ++ ']' :: rest) = encJson x ++ ']' :: rest := by
        rw [hc, List.cons_append]
      have hval' : parseValue (f + 1) (c :: (cs' ++ ']' :: rest)) = some (x, ']' :: rest) := by
        rw [hrec]
        exact hval
      have hsk2 : skipWs (']' :: rest) = ']' :: rest := skipWs_cons_of_not_ws _ (by decide)
      rw [parseItems_succ, he, hc, List.cons_append, skipWs_cons_of_not_ws _ hws]
      simp [hbr, hval', hsk2]
    | cons x2 xs'' =>
      have hszi := jsizeItems_pos (x2 :: xs'')
      have hsum : 1 + jsize x + jsizeItems (x2 :: xs'') ≤ f + 1 := by
        simpa [jsizeItems] using hf
      cases f with
      | zero => omega
      | succ f' =>
        have he : encItems (x :: x2 :: xs'') ++ ']' :: rest
            = encJson x ++ (',' :: (encItems (x2 :: xs'') ++ ']' :: rest)) := by
          simp [encItems]
        have hval := parseValue_enc x (f' + 1)
          (',' :: (encItems (x2 :: xs'') ++ ']' :: rest)) (by omega) (by rfl)
        have hrec2 := parseItems_enc (x2 :: xs'') f' rest (by omega)
        have hrec : c :: (cs' ++ (',' :: (encItems (x2 :: xs'') ++ ']' :: rest)))
            = encJson x ++ (',' :: (encItems (x2 :: xs'') ++ ']' :: rest)) := by
          rw [hc, List.cons_append]
        have hval' : parseValue (f' + 1 + 1)
            (c :: (cs' ++ (',' :: (encItems (x2 :: xs'') ++ ']' :: rest))))
            = some (x, ',' :: (encItems (x2 :: xs'') ++ ']' :: rest)) := by
          rw [hrec]
          exact hval
        have hsk2 : skipWs (',' :: (encItems (x2 :: xs'') ++ ']' :: rest))
            = ',' :: (encItems (x2 :: xs'') ++ ']' :: rest) :=
          skipWs_cons_of_not_ws _ (by decide)
        rw [parseItems_succ, he, hc, List.cons_append, skipWs_cons_of_not_ws _ hws]
        simp [hbr, hval', hrec2, hsk2]
termination_by sizeOf xs
decreasing_by all_goals (subst_vars; first | omega | (simp; omega) | simp)

/-- The object-fields scanner inverts the printer. -/
theorem parseFields_enc (kvs : List (String × Json)) (f : Nat) (rest : List Char)
    (hf : jsizeFields kvs ≤ f + 1) :
    parseFields (f + 1) (encFields kvs ++ rbrace :: rest) = some (kvs, rest) := by
  cases kvs with
  | nil =>
    have he : encFields [] ++ rbrace :: rest = rbrace :: rest := by simp [encFields]
    rw [parseFields_succ, he, skipWs_cons_of_not_ws _ (by decide)]
    simp
  | cons kv kvs' =>
    have hsv := jsize_pos kv.2
    cases kvs' with
    | nil =>
      have he : encFields [kv] ++ rbrace :: rest
          = '"' :: (escapeChars kv.1.data ++ '"' :: (':' :: (encJson kv.2 ++ rbrace :: rest))) := by
        simp [encFields]
      have hval := parseValue_enc kv.2 f (rbrace :: rest)
        (by have : 1 + jsize kv.2 + 1 ≤ f + 1 := by simpa [jsizeFields] using hf
            omega)
        (by rfl)
      have dq : ¬('"' = rbrace) := by decide
      have dc : ¬(rbrace = ',') := by decide
      have hsk1 : skipWs (':' :: (encJson kv.2 ++ rbrace :: rest))
          = ':' :: (encJson kv.2 ++ rbrace :: rest) := skipWs_cons_of_not_ws _ (by decide)
      have hsk2 : skipWs (rbrace :: rest) = rbrace :: rest :=
        skipWs_cons_of_not_ws _ (by decide)
      rw [parseFields_succ, he, skipWs_cons_of_not_ws _ (by decide)]
      simp [dq, dc, scanStr_escapeChars, stringMk_data, hval, hsk1, hsk2]
    | cons kv2 kvs'' =>
      have hszf := jsizeFields_pos (kv2 :: kvs'')
      have hsum : 1 + jsize kv.2 + jsizeFields (kv2 :: kvs'') ≤ f + 1 := by
        simpa [jsizeFields] using hf
      cases f with
      | zero => omega
      | succ f' =>
        have he : encFields (kv :: kv2 :: kvs'') ++ rbrace :: rest
            = '"' :: (escapeChars kv.1.data ++ '"' :: (':' :: (encJson kv.2
                ++ (',' :: (encFields (kv2 :: kvs'') ++ rbrace :: rest))))) := by
          simp [encFields]
        have hval := parseValue_enc kv.2 (f' + 1)
          (',' :: (encFields (kv2 :: kvs'') ++ rbrace :: rest)) (by omega) (by rfl)
        have hrec2 := parseFields_enc (kv2 :: kvs'') f' rest (by omega)
        have dq : ¬('"' = rbrace) := by decide
        have hsk1 : skipWs (':' :: (encJson kv.2
            ++ (',' :: (encFields (kv2 :: kvs'') ++ rbrace :: rest))))
            = ':' :: (encJson kv.2 ++ (',' :: (encFields (kv2 :: kvs'') ++ rbrace :: rest))) :=
          skipWs_cons_of_not_ws _ (by decide)
        have hsk2 : skipWs (',' :: (encFields (kv2 :: kvs'') ++ rbrace :: rest))
            = ',' :: (encFields (kv2 :: kvs'') ++ rbrace :: rest) :=
          skipWs_cons_of_not_ws _ (by decide)
        rw [parseFields_succ, he, skipWs_cons_of_not_ws _ (by decide)]
        simp [dq, scanStr_escapeChars, stringMk_data, hval, hrec2, hsk1, hsk2]
termination_by sizeOf kvs
decreasing_by all_goals (subst_vars; cases kv; simp; first | omega | skip)

end

mutual

/-- `jsize` is controlled by the printed length. -/
theorem jsize_le_enc : ∀ v : Json, jsize v ≤ 2 * (encJson v).length
  | .null => by simp [jsize, encJson, litNull]
  | .bool b => by cases b <;> simp [jsize, encJson, litTrue, litFalse]
  | .num n => by
    have h : encJson (.num n) = intChars n := by simp [encJson]
    have hlen : 1 ≤ (intChars n).length := by
      rw [intChars]
      split
      · simp
      · exact List.length_pos.mpr (natChars_ne_nil _)
    rw [h]
    simp [jsize]
    omega
  | .str s => by
    have h : encJson (.str s) = '"' :: (escapeChars s.data ++ ['"']) := by simp [encJson]
    rw [h]
    simp [jsize]
    omega
  | .arr xs => by
    have h := jsizeItems_le_enc xs
    have hlen : (encJson (.arr xs)).length = (encItems xs).length + 2 := by
      simp [encJson]
    rw [show jsize (.arr xs) = 1 + jsizeItems xs from by simp [jsize], hlen]
    omega
  | .obj kvs => by
    have h := jsizeFields_le_enc kvs
    have hlen : (encJson (.obj kvs)).length = (encFields kvs).length + 2 := by
      simp [encJson]
    rw [show jsize (.obj kvs) = 1 + jsizeFields kvs from by simp [jsize], hlen]
    omega

/-- `jsizeItems` is controlled by the printed length. -/
theorem jsizeItems_le_enc : ∀ xs : List Json, jsizeItems xs ≤ 2 * (encItems xs).length + 2
  | [] => by simp [jsizeItems]
  | [x] => by
    have h := jsize_le_enc x
    have hlen : (encItems [x]).length = (encJson x).length := by simp [encItems]
    rw [show jsizeItems [x] = 1 + jsize x + 1 from by simp [jsizeItems], hlen]
    omega
  | x :: x2 :: xs => by
    have h1 := jsize_le_enc x
    have h2 := jsizeItems_le_enc (x2 :: xs)
    have hlen : (encItems (x :: x2 :: xs)).length
        = (encJson x).length + 1 + (encItems (x2 :: xs)).length := by
      simp [encItems]
      omega
    rw [show jsizeItems (x :: x2 :: xs) = 1 + jsize x + jsizeItems (x2 :: xs) from by
      simp [jsizeItems], hlen]
    omega

/-- `jsizeFields` is controlled by the printed length. -/
theorem jsizeFields_le_enc : ∀ kvs : List (String × Json),
    jsizeFields kvs ≤ 2 * (encFields kvs).length + 2
  | [] => by simp [jsizeFields]
  | [kv] => by
    have h := jsize_le_enc kv.2
    have hlen : (encJson kv.2).length ≤ (encFields [kv]).length := by
      simp [encFields]
      omega
    rw [show jsizeFields [kv] = 1 + jsize kv.2 + 1 from by simp [jsizeFields]]
    omega
  | kv :: kv2 :: kvs => by
    have h1 := jsize_le_enc kv.2
    have h2 := jsizeFields_le_enc (kv2 :: kvs)
    have hlen : (encJson kv.2).length + 1 + (encFields (kv2 :: kvs)).length
        ≤ (encFields (kv :: kv2 :: kvs)).length := by
      simp [encFields]
      omega
    rw [show jsizeFields (kv :: kv2 :: kvs) = 1 + jsize kv.2 + jsizeFields (kv2 :: kvs) from by
      simp [jsizeFields]]
    omega

end

/-- The scanner run by `jsonParse` inverts the printer: the whole
printed document scans back to the printed value with nothing left
over. -/
theorem jsonParse_jsonEncode (v : Json) : jsonParse (jsonEncode v) = some v := by
  have hdata : (jsonEncode v).data = encJson v := rfl
  have hb := jsize_le_enc v
  rw [jsonParse, hdata]
  have hmain := parseValue_enc v (2 * (encJson v).length + 1) [] (by omega) (by rfl)
  rw [List.append_nil] at hmain
  rw [show (2 : Nat) * (encJson v).length + 2 = (2 * (encJson v).length + 1) + 1 from by omega,
    hmain]
  simp [skipWs]

/-! #### Association-list (Python dict) lemmas -/

/-- Looking up the key just assigned. -/
theorem alLookup_alSet_self {κ β : Type} [DecidableEq κ] (k : κ) (v : β) :
    ∀ l : List (κ × β), alLookup k (alSet k v l) = some v
  | [] => by simp [alSet, alLookup]
  | kv :: rest => by
    by_cases h : kv.1 = k
    · simp [alSet, h, alLookup]
    · simp [alSet, h, alLookup, alLookup_alSet_self k v rest]

/-- Assignment does not disturb other keys. -/
theorem alLookup_alSet_ne {κ β : Type} [DecidableEq κ] (k k' : κ) (v : β) (h : k' ≠ k) :
    ∀ l : List (κ × β), alLookup k' (alSet k v l) = alLookup k' l
  | [] => by simp [alSet, alLookup, Ne.symm h]
  | kv :: rest => by
    by_cases hh : kv.1 = k
    · simp [alSet, hh, alLookup, Ne.symm h]
    · simp [alSet, hh, alLookup, alLookup_alSet_ne k k' v h rest]

/-- Assigning a present key keeps the key list unchanged. -/
theorem alSet_keys_of_lookup_some {κ β : Type} [DecidableEq κ] (k : κ) (v : β) :
    ∀ l : List (κ × β), (alLookup k l).isSome = true →
      (alSet k v l).map Prod.fst = l.map Prod.fst
  | [] => by simp [alLookup]
  | kv :: rest => by
    by_cases hh : kv.1 = k
    · simp [alSet, hh, alLookup]
    · intro hsome
      have h2 : (alLookup k rest).isSome = true := by
        simpa [alLookup, hh] using hsome
      simp [alSet, hh, alSet_keys_of_lookup_some k v rest h2]

/-- A key is absent exactly when its lookup fails. -/
theorem alLookup_eq_none_iff {κ β : Type} [DecidableEq κ] (k : κ) :
    ∀ l : List (κ × β), alLookup k l = none ↔ k ∉ l.map Prod.fst
  | [] => by simp [alLookup]
  | kv :: rest => by
    by_cases hh : kv.1 = k
    · simp [alLookup, hh]
    · simp [alLookup, hh, alLookup_eq_none_iff k rest, Ne.symm hh]

/-- Lookup across an append, absent on the left. -/
theorem alLookup_append_none {κ β : Type} [DecidableEq κ] (k : κ) (l2 : List (κ × β)) :
    ∀ l1 : List (κ × β), alLookup k l1 = none → alLookup k (l1 ++ l2) = alLookup k l2
  | [] => by simp
  | kv :: rest => by
    by_cases hh : kv.1 = k
    · simp [alLookup, hh]
    · intro h
      have h2 : alLookup k rest = none := by simpa [alLookup, hh] using h
      simpa [alLookup, hh] using alLookup_append_none k l2 rest h2

/-- Lookup across an append, present on the left. -/
theorem alLookup_append_some {κ β : Type} [DecidableEq κ] (k : κ) (v : β)
    (l2 : List (κ × β)) :
    ∀ l1 : List (κ × β), alLookup k l1 = some v → alLookup k (l1 ++ l2) = some v
  | [] => by simp [alLookup]
  | kv :: rest => by
    by_cases hh : kv.1 = k
    · intro h
      simpa [alLookup, hh] using h
    · intro h
      have h2 : alLookup k rest = some v := by simpa [alLookup, hh] using h
      simpa [alLookup, hh] using alLookup_append_some k v l2 rest h2

/-- Lookup across an appended fresh-keyed singleton. -/
theorem alLookup_append_single_ne {κ β : Type} [DecidableEq κ] (u k2 : κ) (v : β)
    (l : List (κ × β)) (h : k2 ≠ u) :
    alLookup u (l ++ [(k2, v)]) = alLookup u l := by
  cases hlk : alLookup u l with
  | none =>
    rw [alLookup_append_none _ _ _ hlk]
    simp [alLookup, h]
  | some e => rw [alLookup_append_some _ _ _ _ hlk]

/-- A successful lookup exhibits a member. -/
theorem alLookup_some_mem {κ β : Type} [DecidableEq κ] (k : κ) (v : β) :
    ∀ l : List (κ × β), alLookup k l = some v → (k, v) ∈ l
  | [] => by simp [alLookup]
  | kv :: rest => by
    by_cases hh : kv.1 = k
    · intro h
      simp [alLookup, hh] at h
      have : kv = (k, v) := by
        cases kv
        simp at hh h ⊢
        exact ⟨hh, h⟩
      rw [← this]
      exact List.mem_cons_self _ _
    · intro h
      have h2 : alLookup k rest = some v := by simpa [alLookup, hh] using h
      exact List.mem_cons_of_mem _ (alLookup_some_mem k v rest h2)

/-- With duplicate-free keys, membership determines the lookup. -/
theorem alLookup_of_mem_nodup {κ β : Type} [DecidableEq κ] :
    ∀ (l : List (κ × β)) (kv : κ × β), (l.map Prod.fst).Nodup → kv ∈ l →
      alLookup kv.1 l = some kv.2
  | [], kv => by simp
  | kv0 :: rest, kv => by
    intro hnd hm
    rcases List.mem_cons.mp hm with h | h
    · subst h
      simp [alLookup]
    · have hk : kv.1 ≠ kv0.1 := by
        intro hEq
        have : kv.1 ∈ rest.map Prod.fst := List.mem_map.mpr ⟨kv, h, rfl⟩
        rw [hEq] at this
        exact (List.nodup_cons.mp (by simpa using hnd)).1 this
      have := alLookup_of_mem_nodup rest kv (List.nodup_cons.mp (by simpa using hnd)).2 h
      simpa [alLookup, Ne.symm hk] using this

/-! #### Characterization of the dict-building fold -/

/-- What the `setdefault`/assign fold stores at key `u`: nothing when no
row maps to `u`; otherwise the entry built from the first such row by
`init` and updated by `upd` with each later one. -/
theorem dictFold_lookup {κ ρ ε : Type} [DecidableEq κ] (key : ρ → κ) (init : ρ → ε)
    (upd : ε → ρ → ε) (rows : List ρ) (u : κ) :
    alLookup u (dictFold key init upd rows)
      = match rows.filter (fun r => decide (key r = u)) with
        | [] => none
        | r :: rs => some (rs.foldl upd (init r)) := by
  induction rows using List.reverseRecOn with
  | nil => simp [dictFold, alLookup]
  | append_singleton rows r ih =>
    have hstep : dictFold key init upd (rows ++ [r])
        = match alLookup (key r) (dictFold key init upd rows) with
          | none => dictFold key init upd rows ++ [(key r, init r)]
          | some e => alSet (key r) (upd e r) (dictFold key init upd rows) := by
      simp [dictFold, List.foldl_append]
    by_cases hk : key r = u
    · subst hk
      rw [List.filter_append]
      cases hfil : rows.filter (fun r' => decide (key r' = key r)) with
      | nil =>
        have hnone : alLookup (key r) (dictFold key init upd rows) = none := by
          rw [ih, hfil]
        rw [hstep, hnone]
        have : alLookup (key r) (dictFold key init upd rows ++ [(key r, init r)])
            = some (init r) := by
          rw [alLookup_append_none _ _ _ hnone]
          simp [alLookup]
        rw [this]
        simp
      | cons r0 rs =>
        have hsome : alLookup (key r) (dictFold key init upd rows)
            = some (rs.foldl upd (init r0)) := by
          rw [ih, hfil]
        rw [hstep, hsome, alLookup_alSet_self]
        simp [List.foldl_append]
    · rw [List.filter_append]
      have hfr : [r].filter (fun r' => decide (key r' = u)) = [] := by
        simp [hk]
      rw [hfr, List.append_nil]
      rw [hstep]
      cases hlk : alLookup (key r) (dictFold key init upd rows) with
      | none => rw [alLookup_append_single_ne _ _ _ _ hk, ih]
      | some e => rw [alLookup_alSet_ne _ _ _ (fun hEq => hk hEq.symm), ih]

/-- The dict built by the fold has duplicate-free keys. -/
theorem dictFold_keys_nodup {κ ρ ε : Type} [DecidableEq κ] (key : ρ → κ) (init : ρ → ε)
    (upd : ε → ρ → ε) (rows : List ρ) :
    ((dictFold key init upd rows).map Prod.fst).Nodup := by
  induction rows using List.reverseRecOn with
  | nil => simp [dictFold]
  | append_singleton rows r ih =>
    have hstep : dictFold key init upd (rows ++ [r])
        = match alLookup (key r) (dictFold key init upd rows) with
          | none => dictFold key init upd rows ++ [(key r, init r)]
          | some e => alSet (key r) (upd e r) (dictFold key init upd rows) := by
      simp [dictFold, List.foldl_append]
    rw [hstep]
    cases hlk : alLookup (key r) (dictFold key init upd rows) with
    | none =>
      have hnotin : key r ∉ (dictFold key init upd rows).map Prod.fst :=
        (alLookup_eq_none_iff _ _).mp hlk
      simp only [List.map_append, List.map_cons, List.map_nil]
      rw [List.nodup_append]
      refine ⟨ih, List.nodup_singleton _, ?_⟩
      intro a ha hmem
      rw [List.mem_singleton] at hmem
      subst hmem
      exact hnotin ha
    | some e =>
      rw [alSet_keys_of_lookup_some _ _ _ (by simp [hlk])]
      exact ih

/-! #### Emission extraction lemmas -/

/-- If every block's filtered part is empty, the filtered flat map is
empty. -/
theorem flatMap_filter_eq_nil {α β : Type} (p : β → Bool) :
    ∀ (l : List α) (g : α → List β), (∀ x ∈ l, (g x).filter p = []) →
      (l.flatMap g).filter p = []
  | [], g => by simp
  | x :: xs, g => by
    intro h
    rw [List.flatMap_cons, List.filter_append, h x (List.mem_cons_self _ _),
      List.nil_append]
    exact flatMap_filter_eq_nil p xs g fun y hy => h y (List.mem_cons_of_mem _ hy)

/-- Filtering the concatenated emissions of a duplicate-free dict down to
one entry's samples. -/
theorem flatMap_filter_single {κ ε β : Type} [DecidableEq κ] (u : κ) (e : ε)
    (em : κ × ε → List β) (p : β → Bool) :
    ∀ entries : List (κ × ε), (entries.map Prod.fst).Nodup → (u, e) ∈ entries →
      (∀ kv ∈ entries, kv.1 ≠ u → (em kv).filter p = []) →
      (em (u, e)).filter p = em (u, e) →
      (entries.flatMap em).filter p = em (u, e)
  | [], _ => by simp
  | kv0 :: rest, hnd => by
    intro hm hothers hself
    have hnd2 : kv0.1 ∉ rest.map Prod.fst ∧ (rest.map Prod.fst).Nodup := by
      rw [List.map_cons] at hnd
      exact ⟨(List.nodup_cons.mp hnd).1, (List.nodup_cons.mp hnd).2⟩
    have hrest : (∀ kv ∈ rest, kv.1 ≠ u → (em kv).filter p = []) :=
      fun kv hkv => hothers kv (List.mem_cons_of_mem _ hkv)
    rw [List.flatMap_cons, List.filter_append]
    rcases List.mem_cons.mp hm with h | h
    · have hrestnil : (rest.flatMap em).filter p = [] := by
        refine flatMap_filter_eq_nil p rest em fun kv hkv => hrest kv hkv ?_
        intro hEq
        apply hnd2.1
        rw [← h]
        show u ∈ rest.map Prod.fst
        rw [← hEq]
        exact List.mem_map.mpr ⟨kv, hkv, rfl⟩
      rw [← h, hself, hrestnil, List.append_nil]
    · have hk0 : kv0.1 ≠ u := by
        intro hEq
        apply hnd2.1
        rw [hEq]
        exact List.mem_map.mpr ⟨(u, e), h, rfl⟩
      rw [hothers kv0 (List.mem_cons_self _ _) hk0, List.nil_append]
      exact flatMap_filter_single u e em p rest hnd2.2 h hrest hself

/-! #### Entry folds, counting, and enumeration facts -/

/-- Updating a task entry never touches its `meta`. -/
theorem taskEntry_foldl_meta (rs : List TaskStateRow) :
    ∀ e : TaskEntry,
      (rs.foldl (fun e r =>
        ⟨e.meta, alSet (normState r.state) (.countMethod r) e.state_count⟩) e).meta
        = e.meta := by
  induction rs with
  | nil => intro e; rfl
  | cons r rs ih => intro e; rw [List.foldl_cons, ih]

/-- The state-count part of a folded task entry is the assignment fold of
its own updates. -/
theorem taskEntry_foldl_sc (rs : List TaskStateRow) :
    ∀ e : TaskEntry,
      (rs.foldl (fun e r =>
        ⟨e.meta, alSet (normState r.state) (.countMethod r) e.state_count⟩) e).state_count
        = rs.foldl (fun sc r =>
            alSet (normState r.state) (PyVal.countMethod r) sc) e.state_count := by
  induction rs with
  | nil => intro e; rfl
  | cons r rs ih => intro e; rw [List.foldl_cons, List.foldl_cons, ih]

/-- Updating a dag entry never touches its `meta`. -/
theorem dagEntry_foldl_meta (rs : List DagStateRow) :
    ∀ e : DagEntry,
      (rs.foldl (fun e r => ⟨e.meta, alSet r.state r.count e.state_count⟩) e).meta = e.meta := by
  induction rs with
  | nil => intro e; rfl
  | cons r rs ih => intro e; rw [List.foldl_cons, ih]

/-- The state-count part of a folded dag entry is the assignment fold of
its own updates. -/
theorem dagEntry_foldl_sc (rs : List DagStateRow) :
    ∀ e : DagEntry,
      (rs.foldl (fun e r => ⟨e.meta, alSet r.state r.count e.state_count⟩) e).state_count
        = rs.foldl (fun sc r => alSet r.state r.count sc) e.state_count := by
  induction rs with
  | nil => intro e; rfl
  | cons r rs ih => intro e; rw [List.foldl_cons, List.foldl_cons, ih]

/-- Looking up an assignment fold with duplicate-free keys finds the row
that assigned the key, if any. -/
theorem foldl_alSet_lookup {κ β ρ : Type} [DecidableEq κ] (keyf : ρ → κ) (valf : ρ → β)
    (k : κ) (rows : List ρ) (hnd : (rows.map keyf).Nodup) :
    alLookup k (rows.foldl (fun sc r => alSet (keyf r) (valf r) sc) [])
      = (rows.find? (fun r => decide (keyf r = k))).map valf := by
  induction rows using List.reverseRecOn with
  | nil => simp [alLookup]
  | append_singleton rows r ih =>
    have hnd0 : (rows.map keyf).Nodup ∧ keyf r ∉ rows.map keyf := by
      rw [List.map_append, List.nodup_append] at hnd
      refine ⟨hnd.1, fun hmem => ?_⟩
      exact hnd.2.2 hmem (by simp)
    rw [List.foldl_append, List.foldl_cons, List.foldl_nil, List.find?_append]
    by_cases hk : keyf r = k
    · rw [hk, alLookup_alSet_self]
      have hfl : rows.find? (fun r' => decide (keyf r' = k)) = none := by
        rw [List.find?_eq_none]
        intro x hx hkx
        rw [decide_eq_true_eq] at hkx
        apply hnd0.2
        rw [hk, ← hkx]
        exact List.mem_map.mpr ⟨x, hx, rfl⟩
      rw [hfl]
      simp [hk]
    · rw [alLookup_alSet_ne _ _ _ (fun hEq => hk hEq.symm), ih hnd0.1]
      cases hfl : rows.find? (fun r' => decide (keyf r' = k)) with
      | none => simp [hk]
      | some r0 => simp

/-- Flat-mapping a guarded singleton is mapping over the filter. -/
theorem flatMap_guard_singleton {α β : Type} (p : α → Bool) (g : α → β) :
    ∀ l : List α, (l.flatMap fun a => if p a then [g a] else [])
      = (l.filter p).map g
  | [] => by simp
  | a :: l => by
    by_cases hp : p a
    · simp [hp, flatMap_guard_singleton p g l]
    · simp [hp, flatMap_guard_singleton p g l]

/-- A duplicate-free list whose members all equal `a`, containing `a`, is
the singleton `[a]`. -/
theorem eq_singleton_of_nodup_all_eq {α : Type} (a : α) :
    ∀ l : List α, l.Nodup → a ∈ l → (∀ x ∈ l, x = a) → l = [a]
  | [] => by simp
  | b :: l => by
    intro hnd hm hall
    have hb : b = a := hall b (List.mem_cons_self _ _)
    subst hb
    have hl : l = [] := by
      cases hl : l with
      | nil => rfl
      | cons c l' =>
        exfalso
        have hc : c = b := hall c (by rw [hl]; exact List.mem_cons_of_mem _ (List.mem_cons_self _ _))
        have := (List.nodup_cons.mp hnd).1
        rw [hl] at this
        exact this (by rw [hc] at *; exact List.mem_cons_self _ _)
    rw [hl]

/-- Summing `1` over the single occurrence of `a` in a duplicate-free
list. -/
theorem sum_map_ite_eq_one {κ : Type} [DecidableEq κ] (a : κ) :
    ∀ ks : List κ, ks.Nodup → a ∈ ks →
      (ks.map fun k => if a = k then 1 else 0).sum = 1
  | [] => by simp
  | k :: ks => by
    intro hnd hm
    have hzero : ∀ ks' : List κ, a ∉ ks' →
        (ks'.map fun k => if a = k then (1 : Nat) else 0).sum = 0 := by
      intro ks'
      induction ks' with
      | nil => simp
      | cons k' ks'' ih =>
        intro hnot
        have h1 : a ≠ k' := fun h => hnot (h ▸ List.mem_cons_self _ _)
        have h2 : a ∉ ks'' := fun h => hnot (List.mem_cons_of_mem _ h)
        simp [h1, ih h2]
    rcases List.mem_cons.mp hm with h | h
    · subst h
      have hnot : a ∉ ks := (List.nodup_cons.mp hnd).1
      simp [hzero ks hnot]
    · have hne : a ≠ k := by
        intro hEq
        exact (List.nodup_cons.mp hnd).1 (hEq ▸ h)
      simp [hne, sum_map_ite_eq_one a ks (List.nodup_cons.mp hnd).2 h]

/-- Counting a list by a duplicate-free, exhaustive key enumeration sums
to its length. -/
theorem sum_filter_lengths {ρ κ : Type} [DecidableEq κ] (f : ρ → κ) (ks : List κ)
    (hnd : ks.Nodup) :
    ∀ G : List ρ, (∀ r ∈ G, f r ∈ ks) →
      (ks.map fun k => (G.filter fun r => decide (f r = k)).length).sum = G.length
  | [] => by simp
  | r :: G => by
    intro hmem
    have hsplit : ∀ k : κ, ((r :: G).filter fun r' => decide (f r' = k)).length
        = (if f r = k then 1 else 0) + (G.filter fun r' => decide (f r' = k)).length := by
      intro k
      by_cases hk : f r = k
      · simp [List.filter_cons, hk]; omega
      · simp [List.filter_cons, hk]
    have hone := sum_map_ite_eq_one (f r) ks hnd (hmem r (List.mem_cons_self _ _))
    calc (ks.map fun k => ((r :: G).filter fun r' => decide (f r' = k)).length).sum
        = (ks.map fun k => (if f r = k then 1 else 0)
            + (G.filter fun r' => decide (f r' = k)).length).sum := by
          congr 1
          exact List.map_congr_left fun k _ => hsplit k
      _ = (ks.map fun k => if f r = k then 1 else 0).sum
            + (ks.map fun k => (G.filter fun r' => decide (f r' = k)).length).sum := by
          rw [List.sum_map_add]
      _ = 1 + G.length := by
          rw [hone, sum_filter_lengths f ks hnd G
            (fun r' hr' => hmem r' (List.mem_cons_of_mem _ hr'))]
      _ = (r :: G).length := by simp [Nat.add_comm]

/-- Summing the numeric values of a family built by mapping counts. -/
theorem sumValues_map_num {α : Type} (g : α → List String) (cnt : α → Nat) :
    ∀ l : List α, sumValues (l.map fun a => ⟨g a, .num (cnt a)⟩) = ((l.map cnt).sum : Int)
  | [] => by simp [sumValues]
  | a :: l => by
    have ih := sumValues_map_num g cnt l
    simp only [List.map_cons, sumValues, sampleNum, List.sum_cons] at ih ⊢
    rw [ih]
    push_cast
    ring

/-- `normState` tells the defined task states apart. -/
theorem normState_inj_on_enum : ∀ s1 ∈ task_states, ∀ s2 ∈ task_states,
    normState s1 = normState s2 → s1 = s2 := by decide

/-- The normalized defined task-state labels are duplicate-free. -/
theorem task_states_norm_nodup : (task_states.map normState).Nodup := by decide

/-- The defined dag states (as stored states) are duplicate-free. -/
theorem dag_states_some_nodup : (dag_states.map Option.some).Nodup := by decide

/-! #### Characterizing the status queries and their aggregation dicts -/

/-- `get_task_state_info` decomposed into its group keys and per-key
rows. -/
theorem get_task_state_info_eq (db : Db) :
    get_task_state_info db
      = (taskKeys db).flatMap fun k =>
          (db.dag_models.filter fun dmr =>
            decide (dmr.dag_id = k.1 ∧ dmr.is_active = true ∧ dmr.is_paused = false)).map
            fun dmr => taskQueryRow db dmr k := rfl

/-- `get_dag_state_info` decomposed into its group keys and per-key
rows. -/
theorem get_dag_state_info_eq (db : Db) :
    get_dag_state_info db
      = (dagKeys db).flatMap fun k =>
          (db.dag_models.filter fun dmr =>
            decide (dmr.dag_id = k.1 ∧ dmr.is_active = true ∧ dmr.is_paused = false)).map
            fun dmr => dagQueryRow db dmr k := rfl

/-- `tasks_info_by_id` looked up at a uid: nothing if no query row maps
to it; otherwise the entry built from the first such row and updated by
the rest. -/
theorem tasks_info_lookup (rows : List TaskStateRow) (u : String) :
    alLookup u (tasks_info_by_id rows)
      = match rows.filter (fun r => decide (taskUid r.dag_id r.task_id = u)) with
        | [] => none
        | r :: rs => some (rs.foldl
            (fun e r => ⟨e.meta, alSet (normState r.state) (.countMethod r) e.state_count⟩)
            ⟨r, [(normState r.state, .countMethod r)]⟩) := by
  rw [tasks_info_by_id, dictFold_lookup]
  generalize List.filter (fun r => decide (taskUid r.dag_id r.task_id = u)) rows = l
  cases l <;> rfl

/-- `dags_info_by_id` looked up at a dag id. -/
theorem dags_info_lookup (rows : List DagStateRow) (u : String) :
    alLookup u (dags_info_by_id rows)
      = match rows.filter (fun r => decide (r.dag_id = u)) with
        | [] => none
        | r :: rs => some (rs.foldl
            (fun e r => ⟨e.meta, alSet r.state r.count e.state_count⟩)
            ⟨r, [(r.state, r.count)]⟩) := by
  rw [dags_info_by_id, dictFold_lookup]
  generalize List.filter (fun r => decide (r.dag_id = u)) rows = l
  cases l <;> rfl

/-- Every entry of `tasks_info_by_id` keeps a meta row whose uid is the
entry's own key. -/
theorem tasks_info_meta_key (rows : List TaskStateRow) :
    ∀ kv ∈ tasks_info_by_id rows, taskUid kv.2.meta.dag_id kv.2.meta.task_id = kv.1 := by
  intro kv hkv
  have hlk : alLookup kv.1 (tasks_info_by_id rows) = some kv.2 :=
    alLookup_of_mem_nodup _ kv
      (dictFold_keys_nodup (fun (r : TaskStateRow) => taskUid r.dag_id r.task_id)
        (fun r => (⟨r, [(normState r.state, .countMethod r)]⟩ : TaskEntry))
        (fun e r => (⟨e.meta,
          alSet (normState r.state) (.countMethod r) e.state_count⟩ : TaskEntry))
        rows) hkv
  rw [tasks_info_lookup] at hlk
  cases hfil : rows.filter (fun r => decide (taskUid r.dag_id r.task_id = kv.1)) with
  | nil => rw [hfil] at hlk; exact absurd hlk (by simp)
  | cons r0 rs =>
    rw [hfil] at hlk
    have hr0 : taskUid r0.dag_id r0.task_id = kv.1 := by
      have hm : r0 ∈ rows.filter (fun r => decide (taskUid r.dag_id r.task_id = kv.1)) := by
        rw [hfil]; exact List.mem_cons_self _ _
      exact of_decide_eq_true (List.mem_filter.mp hm).2
    have h2 : some (rs.foldl
        (fun e r => ⟨e.meta, alSet (normState r.state) (.countMethod r) e.state_count⟩)
        (⟨r0, [(normState r0.state, .countMethod r0)]⟩ : TaskEntry)) = some kv.2 := hlk
    have hmeta : kv.2.meta = r0 := by
      rw [← Option.some.inj h2, taskEntry_foldl_meta]
    rw [hmeta]
    exact hr0

/-- Every entry of `dags_info_by_id` keeps a meta row whose dag id is the
entry's own key. -/
theorem dags_info_meta_key (rows : List DagStateRow) :
    ∀ kv ∈ dags_info_by_id rows, kv.2.meta.dag_id = kv.1 := by
  intro kv hkv
  have hlk : alLookup kv.1 (dags_info_by_id rows) = some kv.2 :=
    alLookup_of_mem_nodup _ kv
      (dictFold_keys_nodup (fun (r : DagStateRow) => r.dag_id)
        (fun r => (⟨r, [(r.state, r.count)]⟩ : DagEntry))
        (fun e r => (⟨e.meta, alSet r.state r.count e.state_count⟩ : DagEntry)) rows) hkv
  rw [dags_info_lookup] at hlk
  cases hfil : rows.filter (fun r => decide (r.dag_id = kv.1)) with
  | nil => rw [hfil] at hlk; exact absurd hlk (by simp)
  | cons r0 rs =>
    rw [hfil] at hlk
    have hr0 : r0.dag_id = kv.1 := by
      have hm : r0 ∈ rows.filter (fun r => decide (r.dag_id = kv.1)) := by
        rw [hfil]; exact List.mem_cons_self _ _
      exact of_decide_eq_true (List.mem_filter.mp hm).2
    have h2 : some (rs.foldl
        (fun e r => ⟨e.meta, alSet r.state r.count e.state_count⟩)
        (⟨r0, [(r0.state, r0.count)]⟩ : DagEntry)) = some kv.2 := hlk
    have hmeta : kv.2.meta = r0 := by
      rw [← Option.some.inj h2, dagEntry_foldl_meta]
    rw [hmeta]
    exact hr0

/-- With duplicate-free, id-unique dag models, the active/unpaused filter
at `d` returns exactly the one model row `dm`. -/
theorem dm_filter_singleton (db : Db) (dm : DagModelRow) (d : String)
    (hdm : dm ∈ db.dag_models) (hdid : dm.dag_id = d) (hact : dm.is_active = true)
    (hpau : dm.is_paused = false) (hndm : db.dag_models.Nodup)
    (huniq : ∀ dm1 ∈ db.dag_models, ∀ dm2 ∈ db.dag_models,
      dm1.dag_id = dm2.dag_id → dm1 = dm2) :
    db.dag_models.filter (fun dmr =>
      decide (dmr.dag_id = d ∧ dmr.is_active = true ∧ dmr.is_paused = false)) = [dm] := by
  apply eq_singleton_of_nodup_all_eq
  · exact hndm.filter _
  · rw [List.mem_filter]
    exact ⟨hdm, by simp [hdid, hact, hpau]⟩
  · intro x hx
    rw [List.mem_filter] at hx
    have hxd : x.dag_id = d := (of_decide_eq_true hx.2).1
    exact huniq x hx.1 dm hdm (by rw [hxd, hdid])

/-- Filtering the task-status query rows down to one uid, when uids
cannot collide and the dag model at `d` is unique, yields exactly the
per-state rows of the pair `(d, t)`. -/
theorem task_rows_filter_eq (db : Db) (dm : DagModelRow) (d t : String)
    (hdmf : db.dag_models.filter (fun dmr =>
      decide (dmr.dag_id = d ∧ dmr.is_active = true ∧ dmr.is_paused = false)) = [dm])
    (hinj : ∀ t1 ∈ db.task_instances, ∀ t2 ∈ db.task_instances,
      taskUid t1.dag_id t1.task_id = taskUid t2.dag_id t2.task_id →
      t1.dag_id = t2.dag_id ∧ t1.task_id = t2.task_id)
    (hpair : ∃ ti ∈ db.task_instances, ti.dag_id = d ∧ ti.task_id = t) :
    (get_task_state_info db).filter
        (fun r => decide (taskUid r.dag_id r.task_id = taskUid d t))
      = ((taskKeys db).filter fun k => decide (k.1 = d ∧ k.2.1 = t)).map
          (taskQueryRow db dm) := by
  obtain ⟨ti0, hti0, hti0d, hti0t⟩ := hpair
  have huid : ∀ k ∈ taskKeys db, taskUid k.1 k.2.1 = taskUid d t →
      k.1 = d ∧ k.2.1 = t := by
    intro k hk hEq
    rw [taskKeys, List.mem_dedup] at hk
    obtain ⟨ti, hti, htik⟩ := List.mem_map.mp hk
    subst htik
    have h1 := hinj ti hti ti0 hti0 (by rw [hti0d, hti0t]; exact hEq)
    refine ⟨?_, ?_⟩
    · show ti.dag_id = d
      rw [h1.1, hti0d]
    · show ti.task_id = t
      rw [h1.2, hti0t]
  have hcong : ∀ k ∈ taskKeys db,
      ((db.dag_models.filter fun dmr =>
          decide (dmr.dag_id = k.1 ∧ dmr.is_active = true ∧ dmr.is_paused = false)).map
          fun dmr => taskQueryRow db dmr k).filter
          (fun r => decide (taskUid r.dag_id r.task_id = taskUid d t))
        = if decide (k.1 = d ∧ k.2.1 = t) then [taskQueryRow db dm k] else [] := by
    intro k hk
    by_cases hkdt : k.1 = d ∧ k.2.1 = t
    · rw [if_pos (by simp [hkdt.1, hkdt.2])]
      rw [hkdt.1, hdmf, List.map_cons, List.map_nil]
      refine List.filter_eq_self.mpr ?_
      intro a ha
      rw [List.mem_singleton] at ha
      subst ha
      simp [taskQueryRow, taskUid, hkdt.1, hkdt.2]
    · rw [if_neg (by simpa using hkdt)]
      refine List.filter_eq_nil_iff.mpr ?_
      intro r hr
      obtain ⟨dmr, hdmr, hrEq⟩ := List.mem_map.mp hr
      subst hrEq
      simp only [taskQueryRow, decide_eq_true_eq]
      intro hEq
      exact hkdt (huid k hk hEq)
  simp only [get_task_state_info_eq, List.filter_flatMap]
  rw [List.flatMap_congr hcong]
  exact flatMap_guard_singleton _ _ _

/-- Filtering the dag-status query rows down to one dag id, when the dag
model at `d` is unique, yields exactly the per-state rows of `d`. -/
theorem dag_rows_filter_eq (db : Db) (dm : DagModelRow) (d : String)
    (hdmf : db.dag_models.filter (fun dmr =>
      decide (dmr.dag_id = d ∧ dmr.is_active = true ∧ dmr.is_paused = false)) = [dm]) :
    (get_dag_state_info db).filter (fun r => decide (r.dag_id = d))
      = ((dagKeys db).filter fun k => decide (k.1 = d)).map (dagQueryRow db dm) := by
  have hcong : ∀ k ∈ dagKeys db,
      ((db.dag_models.filter fun dmr =>
          decide (dmr.dag_id = k.1 ∧ dmr.is_active = true ∧ dmr.is_paused = false)).map
          fun dmr => dagQueryRow db dmr k).filter
          (fun r => decide (r.dag_id = d))
        = if decide (k.1 = d) then [dagQueryRow db dm k] else [] := by
    intro k _hk
    by_cases hkd : k.1 = d
    · rw [if_pos (by simp [hkd])]
      rw [hkd, hdmf, List.map_cons, List.map_nil]
      refine List.filter_eq_self.mpr ?_
      intro a ha
      rw [List.mem_singleton] at ha
      subst ha
      simp [dagQueryRow, hkd]
    · rw [if_neg (by simpa using hkd)]
      refine List.filter_eq_nil_iff.mpr ?_
      intro r hr
      obtain ⟨dmr, hdmr, hrEq⟩ := List.mem_map.mp hr
      subst hrEq
      simp only [dagQueryRow, decide_eq_true_eq]
      exact hkd
  simp only [get_dag_state_info_eq, List.filter_flatMap]
  rw [List.flatMap_congr hcong]
  exact flatMap_guard_singleton _ _ _

/-- Under `StatusHyps`, the `airflow_task_status` samples for the pair
`(d, t)` are exactly one per defined task state; a state with no rows
carries the integer `0`, while a present state carries the stored
`task.count` — the bound tuple `count` method of its group row, not a
number. -/
theorem taskStatus_pair_eq (db : Db) (dm : DagModelRow) (d t : String)
    (h : StatusHyps db dm d t) :
    samplesFor2 (taskStatusSamples (get_task_state_info db)) d t
      = task_states.map fun s =>
          ⟨[d, t, dm.owners, normState s],
            if (db.task_instances.filter fun ti =>
                decide (ti.dag_id = d ∧ ti.task_id = t ∧ ti.state = s)) = []
            then .num 0
            else .countMethod (taskQueryRow db dm (d, t, s))⟩ := by
  unfold StatusHyps at h
  obtain ⟨hdm, hdid, hact, hpau, hndm, huniq, hinj, hstates, _hrstates, hpair, _hrun⟩ := h
  have hdmf := dm_filter_singleton db dm d hdm hdid hact hpau hndm huniq
  have hrows := task_rows_filter_eq db dm d t hdmf hinj hpair
  have hkstate : ∀ k ∈ taskKeys db, k.2.2 ∈ task_states := by
    intro k hk
    rw [taskKeys, List.mem_dedup] at hk
    obtain ⟨ti, hti, htik⟩ := List.mem_map.mp hk
    subst htik
    exact hstates ti hti
  have hkdedup : ∀ p : String × String × Option String,
      (∃ ti ∈ db.task_instances,
        ti.dag_id = p.1 ∧ ti.task_id = p.2.1 ∧ ti.state = p.2.2) →
      p ∈ taskKeys db := by
    intro p hp
    obtain ⟨ti, hti, h1, h2, h3⟩ := hp
    rw [taskKeys, List.mem_dedup]
    exact List.mem_map.mpr ⟨ti, hti, by rw [h1, h2, h3]⟩
  obtain ⟨ti0, hti0, hti0d, hti0t⟩ := hpair
  have hk0 : ((d, t, ti0.state) : String × String × Option String)
      ∈ (taskKeys db).filter (fun k => decide (k.1 = d ∧ k.2.1 = t)) :=
    List.mem_filter.mpr
      ⟨hkdedup (d, t, ti0.state) ⟨ti0, hti0, hti0d, hti0t, rfl⟩, by simp⟩
  cases hKs : (taskKeys db).filter (fun k => decide (k.1 = d ∧ k.2.1 = t)) with
  | nil => rw [hKs] at hk0; exact absurd hk0 (List.not_mem_nil _)
  | cons k0 ks' =>
    have hk0m : k0 ∈ (taskKeys db).filter (fun k => decide (k.1 = d ∧ k.2.1 = t)) := by
      rw [hKs]; exact List.mem_cons_self _ _
    have hk0f := List.mem_filter.mp hk0m
    have hk01 : k0.1 = d := (of_decide_eq_true hk0f.2).1
    have hk02 : k0.2.1 = t := (of_decide_eq_true hk0f.2).2
    obtain ⟨E, hlkE, hmetaE, hscE⟩ : ∃ E : TaskEntry,
        alLookup (taskUid d t) (tasks_info_by_id (get_task_state_info db)) = some E
        ∧ E.meta = taskQueryRow db dm k0
        ∧ E.state_count = ((k0 :: ks').map (taskQueryRow db dm)).foldl
            (fun sc r => alSet (normState r.state) (PyVal.countMethod r) sc) [] := by
      refine ⟨(ks'.map (taskQueryRow db dm)).foldl
        (fun e r => ⟨e.meta, alSet (normState r.state) (.countMethod r) e.state_count⟩)
        ⟨taskQueryRow db dm k0, [(normState (taskQueryRow db dm k0).state,
          .countMethod (taskQueryRow db dm k0))]⟩, ?_, ?_, ?_⟩
      · rw [tasks_info_lookup, hrows, hKs, List.map_cons]
      · rw [taskEntry_foldl_meta]
      · rw [taskEntry_foldl_sc, List.map_cons, List.foldl_cons]
        rfl
    have hnodup : ((tasks_info_by_id (get_task_state_info db)).map Prod.fst).Nodup :=
      dictFold_keys_nodup (fun (r : TaskStateRow) => taskUid r.dag_id r.task_id)
        (fun r => (⟨r, [(normState r.state, .countMethod r)]⟩ : TaskEntry))
        (fun e r => (⟨e.meta,
          alSet (normState r.state) (.countMethod r) e.state_count⟩ : TaskEntry))
        (get_task_state_info db)
    have hmem_e : (taskUid d t, E) ∈ tasks_info_by_id (get_task_state_info db) :=
      alLookup_some_mem _ _ _ hlkE
    have hmapnd : ((((taskKeys db).filter fun k => decide (k.1 = d ∧ k.2.1 = t)).map
        (taskQueryRow db dm)).map (fun r => normState r.state)).Nodup := by
      have hEqm : ((((taskKeys db).filter fun k => decide (k.1 = d ∧ k.2.1 = t)).map
          (taskQueryRow db dm)).map (fun r => normState r.state))
          = ((taskKeys db).filter fun k => decide (k.1 = d ∧ k.2.1 = t)).map
            (fun k => normState k.2.2) := by
        rw [List.map_map]
        rfl
      rw [hEqm]
      refine List.Nodup.map_on ?_ (List.Nodup.filter _ (List.nodup_dedup _))
      intro x hx y hy hxy
      have hxm := List.mem_filter.mp hx
      have hym := List.mem_filter.mp hy
      have hstEq : x.2.2 = y.2.2 :=
        normState_inj_on_enum x.2.2 (hkstate x hxm.1) y.2.2 (hkstate y hym.1) hxy
      refine Prod.ext ?_ (Prod.ext ?_ hstEq)
      · rw [(of_decide_eq_true hxm.2).1, (of_decide_eq_true hym.2).1]
      · rw [(of_decide_eq_true hxm.2).2, (of_decide_eq_true hym.2).2]
    have hval : ∀ s ∈ task_states,
        (alLookup (normState s) (((k0 :: ks').map (taskQueryRow db dm)).foldl
            (fun sc r => alSet (normState r.state) (PyVal.countMethod r) sc) [])).getD
            (.num 0)
          = if (db.task_instances.filter fun ti =>
                decide (ti.dag_id = d ∧ ti.task_id = t ∧ ti.state = s)) = []
            then .num 0
            else .countMethod (taskQueryRow db dm (d, t, s)) := by
      intro s hs
      rw [← hKs]
      have hfd : alLookup (normState s) ((((taskKeys db).filter fun k =>
            decide (k.1 = d ∧ k.2.1 = t)).map (taskQueryRow db dm)).foldl
            (fun sc r => alSet (normState r.state) (PyVal.countMethod r) sc) [])
          = ((((taskKeys db).filter fun k => decide (k.1 = d ∧ k.2.1 = t)).map
              (taskQueryRow db dm)).find?
              (fun r => decide (normState r.state = normState s))).map
              (fun r => PyVal.countMethod r) :=
        foldl_alSet_lookup (fun (r : TaskStateRow) => normState r.state)
          (fun r => PyVal.countMethod r) (normState s) _ hmapnd
      rw [hfd, List.find?_map]
      cases hf : ((taskKeys db).filter fun k => decide (k.1 = d ∧ k.2.1 = t)).find?
          ((fun r => decide (normState r.state = normState s)) ∘ (taskQueryRow db dm)) with
      | none =>
        have hnil : db.task_instances.filter (fun ti =>
            decide (ti.dag_id = d ∧ ti.task_id = t ∧ ti.state = s)) = [] := by
          refine List.filter_eq_nil_iff.mpr ?_
          intro ti hti hcon
          have hcon2 := of_decide_eq_true hcon
          have hkmem : ((d, t, s) : String × String × Option String) ∈ (taskKeys db).filter
              (fun k => decide (k.1 = d ∧ k.2.1 = t)) :=
            List.mem_filter.mpr
              ⟨hkdedup (d, t, s) ⟨ti, hti, hcon2.1, hcon2.2.1, hcon2.2.2⟩, by simp⟩
          have hne := List.find?_eq_none.mp hf _ hkmem
          apply hne
          show decide (normState (taskQueryRow db dm (d, t, s)).state = normState s) = true
          simp [taskQueryRow]
        rw [hnil]
        simp
      | some k =>
        have hkmem := List.mem_filter.mp (List.mem_of_find?_eq_some hf)
        have hks : normState k.2.2 = normState s := by
          have h2 := List.find?_some hf
          simpa [taskQueryRow] using h2
        have hk1 : k.1 = d := (of_decide_eq_true hkmem.2).1
        have hk2 : k.2.1 = t := (of_decide_eq_true hkmem.2).2
        have hk3 : k.2.2 = s := normState_inj_on_enum k.2.2 (hkstate k hkmem.1) s hs hks
        have hkeq : k = ((d, t, s) : String × String × Option String) :=
          Prod.ext hk1 (Prod.ext hk2 hk3)
        have hne2 : ¬ (db.task_instances.filter fun ti =>
            decide (ti.dag_id = d ∧ ti.task_id = t ∧ ti.state = s)) = [] := by
          have hkk := hkmem.1
          rw [taskKeys, List.mem_dedup] at hkk
          obtain ⟨ti, hti, htik⟩ := List.mem_map.mp hkk
          intro hnil2
          rw [List.filter_eq_nil_iff] at hnil2
          have h3 : (ti.dag_id, ti.task_id, ti.state)
              = ((d, t, s) : String × String × Option String) := by rw [htik, hkeq]
          rw [Prod.mk.injEq, Prod.mk.injEq] at h3
          exact hnil2 ti hti (by simp [h3.1, h3.2.1, h3.2.2])
        simp only [Option.map_some', Option.getD_some]
        rw [hkeq, if_neg hne2]
    have hothers : ∀ kv ∈ tasks_info_by_id (get_task_state_info db),
        kv.1 ≠ taskUid d t →
        (task_states.map fun s =>
          (⟨[kv.2.meta.dag_id, kv.2.meta.task_id, kv.2.meta.owners, normState s],
            (alLookup (normState s) kv.2.state_count).getD (.num 0)⟩ : Sample)).filter
          (fun smp => decide (smp.labels.take 2 = [d, t])) = [] := by
      intro kv hkv hne
      refine List.filter_eq_nil_iff.mpr ?_
      intro smp hsmp
      obtain ⟨s, hsmem, hsEq⟩ := List.mem_map.mp hsmp
      subst hsEq
      simp only [decide_eq_true_eq]
      intro hlab
      have h1 : kv.2.meta.dag_id = d ∧ kv.2.meta.task_id = t := by
        simpa using hlab
      apply hne
      rw [← tasks_info_meta_key _ kv hkv, h1.1, h1.2]
    have hself : (task_states.map fun s =>
        (⟨[E.meta.dag_id, E.meta.task_id, E.meta.owners, normState s],
          (alLookup (normState s) E.state_count).getD (.num 0)⟩ : Sample)).filter
        (fun smp => decide (smp.labels.take 2 = [d, t]))
        = task_states.map fun s =>
          (⟨[E.meta.dag_id, E.meta.task_id, E.meta.owners, normState s],
            (alLookup (normState s) E.state_count).getD (.num 0)⟩ : Sample) := by
      refine List.filter_eq_self.mpr ?_
      intro smp hsmp
      obtain ⟨s, hsmem, hsEq⟩ := List.mem_map.mp hsmp
      subst hsEq
      simp [hmetaE, taskQueryRow, hk01, hk02]
    have hfinal := flatMap_filter_single (taskUid d t) E
      (fun kv : String × TaskEntry => task_states.map fun s =>
        (⟨[kv.2.meta.dag_id, kv.2.meta.task_id, kv.2.meta.owners, normState s],
          (alLookup (normState s) kv.2.state_count).getD (.num 0)⟩ : Sample))
      (fun smp => decide (smp.labels.take 2 = [d, t]))
      (tasks_info_by_id (get_task_state_info db)) hnodup hmem_e hothers hself
    calc samplesFor2 (taskStatusSamples (get_task_state_info db)) d t
        = task_states.map (fun s =>
            (⟨[E.meta.dag_id, E.meta.task_id, E.meta.owners, normState s],
              (alLookup (normState s) E.state_count).getD (.num 0)⟩ : Sample)) := hfinal
      _ = task_states.map fun s =>
            ⟨[d, t, dm.owners, normState s],
              if (db.task_instances.filter fun ti =>
                  decide (ti.dag_id = d ∧ ti.task_id = t ∧ ti.state = s)) = []
              then .num 0
              else .countMethod (taskQueryRow db dm (d, t, s))⟩ := by
          refine List.map_congr_left ?_
          intro s hs
          rw [hmetaE, hscE, hval s hs]
          simp [taskQueryRow, hk01, hk02]

/-- Under `StatusHyps`, the `airflow_dag_status` samples for the dag `d`
are exactly one per defined dag state, each carrying the number of runs
of `d` in that state. -/
theorem dagStatus_dag_eq (db : Db) (dm : DagModelRow) (d t : String)
    (h : StatusHyps db dm d t) :
    samplesFor1 (dagStatusSamples (get_dag_state_info db)) d
      = dag_states.map fun s =>
          ⟨[d, dm.owners, s],
            .num ((db.dag_runs.filter fun r =>
              decide (r.dag_id = d ∧ r.state = some s)).length)⟩ := by
  unfold StatusHyps at h
  obtain ⟨hdm, hdid, hact, hpau, hndm, huniq, _hinj, _hstates, _hrstates, _hpair, hrun⟩ := h
  have hdmf := dm_filter_singleton db dm d hdm hdid hact hpau hndm huniq
  have hrows := dag_rows_filter_eq db dm d hdmf
  have hkdedup : ∀ p : String × Option String,
      (∃ r ∈ db.dag_runs, r.dag_id = p.1 ∧ r.state = p.2) → p ∈ dagKeys db := by
    intro p hp
    obtain ⟨r, hr, h1, h2⟩ := hp
    rw [dagKeys, List.mem_dedup]
    exact List.mem_map.mpr ⟨r, hr, by rw [h1, h2]⟩
  obtain ⟨r0, hr0, hr0d⟩ := hrun
  have hk0 : ((d, r0.state) : String × Option String)
      ∈ (dagKeys db).filter (fun k => decide (k.1 = d)) :=
    List.mem_filter.mpr ⟨hkdedup (d, r0.state) ⟨r0, hr0, hr0d, rfl⟩, by simp⟩
  cases hKs : (dagKeys db).filter (fun k => decide (k.1 = d)) with
  | nil => rw [hKs] at hk0; exact absurd hk0 (List.not_mem_nil _)
  | cons k0 ks' =>
    have hk0m : k0 ∈ (dagKeys db).filter (fun k => decide (k.1 = d)) := by
      rw [hKs]; exact List.mem_cons_self _ _
    have hk0f := List.mem_filter.mp hk0m
    have hk01 : k0.1 = d := of_decide_eq_true hk0f.2
    obtain ⟨E, hlkE, hmetaE, hscE⟩ : ∃ E : DagEntry,
        alLookup d (dags_info_by_id (get_dag_state_info db)) = some E
        ∧ E.meta = dagQueryRow db dm k0
        ∧ E.state_count = ((k0 :: ks').map (dagQueryRow db dm)).foldl
            (fun sc r => alSet r.state r.count sc) [] := by
      refine ⟨(ks'.map (dagQueryRow db dm)).foldl
        (fun e r => ⟨e.meta, alSet r.state r.count e.state_count⟩)
        ⟨dagQueryRow db dm k0, [((dagQueryRow db dm k0).state,
          (dagQueryRow db dm k0).count)]⟩, ?_, ?_, ?_⟩
      · rw [dags_info_lookup, hrows, hKs, List.map_cons]
      · rw [dagEntry_foldl_meta]
      · rw [dagEntry_foldl_sc, List.map_cons, List.foldl_cons]
        rfl
    have hnodup : ((dags_info_by_id (get_dag_state_info db)).map Prod.fst).Nodup :=
      dictFold_keys_nodup (fun (r : DagStateRow) => r.dag_id)
        (fun r => (⟨r, [(r.state, r.count)]⟩ : DagEntry))
        (fun e r => (⟨e.meta, alSet r.state r.count e.state_count⟩ : DagEntry))
        (get_dag_state_info db)
    have hmem_e : (d, E) ∈ dags_info_by_id (get_dag_state_info db) :=
      alLookup_some_mem _ _ _ hlkE
    have hmapnd : ((((dagKeys db).filter fun k => decide (k.1 = d)).map
        (dagQueryRow db dm)).map (fun r => r.state)).Nodup := by
      have hEqm : ((((dagKeys db).filter fun k => decide (k.1 = d)).map
          (dagQueryRow db dm)).map (fun r => r.state))
          = ((dagKeys db).filter fun k => decide (k.1 = d)).map (fun k => k.2) := by
        rw [List.map_map]
        rfl
      rw [hEqm]
      refine List.Nodup.map_on ?_ (List.Nodup.filter _ (List.nodup_dedup _))
      intro x hx y hy hxy
      have hxm := List.mem_filter.mp hx
      have hym := List.mem_filter.mp hy
      refine Prod.ext ?_ hxy
      rw [of_decide_eq_true hxm.2, of_decide_eq_true hym.2]
    have hval : ∀ s : String,
        (alLookup (some s) (((k0 :: ks').map (dagQueryRow db dm)).foldl
            (fun sc r => alSet r.state r.count sc) [])).getD 0
          = (db.dag_runs.filter fun r =>
              decide (r.dag_id = d ∧ r.state = some s)).length := by
      intro s
      rw [← hKs]
      have hfd : alLookup (some s) ((((dagKeys db).filter fun k =>
            decide (k.1 = d)).map (dagQueryRow db dm)).foldl
            (fun sc r => alSet r.state r.count sc) [])
          = ((((dagKeys db).filter fun k => decide (k.1 = d)).map
              (dagQueryRow db dm)).find?
              (fun r => decide (r.state = some s))).map (fun r => r.count) :=
        foldl_alSet_lookup (fun (r : DagStateRow) => r.state)
          (fun r => r.count) (some s) _ hmapnd
      rw [hfd, List.find?_map]
      cases hf : ((dagKeys db).filter fun k => decide (k.1 = d)).find?
          ((fun r => decide (r.state = some s)) ∘ (dagQueryRow db dm)) with
      | none =>
        have hnil : db.dag_runs.filter (fun r =>
            decide (r.dag_id = d ∧ r.state = some s)) = [] := by
          refine List.filter_eq_nil_iff.mpr ?_
          intro r hr hcon
          have hcon2 := of_decide_eq_true hcon
          have hkmem : ((d, some s) : String × Option String) ∈ (dagKeys db).filter
              (fun k => decide (k.1 = d)) :=
            List.mem_filter.mpr ⟨hkdedup (d, some s) ⟨r, hr, hcon2.1, hcon2.2⟩, by simp⟩
          have hne := List.find?_eq_none.mp hf _ hkmem
          apply hne
          show decide ((dagQueryRow db dm (d, some s)).state = some s) = true
          simp [dagQueryRow]
        rw [hnil]
        rfl
      | some k =>
        have hkmem := List.mem_filter.mp (List.mem_of_find?_eq_some hf)
        have hk3 : k.2 = some s := by
          have h2 := List.find?_some hf
          simpa [dagQueryRow] using h2
        have hk1 : k.1 = d := of_decide_eq_true hkmem.2
        simp only [Option.map_some', Option.getD_some]
        show ((db.dag_runs.filter fun r =>
            decide (r.dag_id = k.1 ∧ r.state = k.2)).filter
            (fun r => r.state.isSome)).length = _
        rw [hk1, hk3]
        have hkeep : (db.dag_runs.filter fun r =>
            decide (r.dag_id = d ∧ r.state = some s)).filter (fun r => r.state.isSome)
            = db.dag_runs.filter fun r => decide (r.dag_id = d ∧ r.state = some s) := by
          refine List.filter_eq_self.mpr ?_
          intro r hr
          rw [(of_decide_eq_true (List.mem_filter.mp hr).2).2]
          rfl
        rw [hkeep]
    have hothers : ∀ kv ∈ dags_info_by_id (get_dag_state_info db), kv.1 ≠ d →
        (dag_states.map fun s =>
          (⟨[kv.2.meta.dag_id, kv.2.meta.owners, s],
            .num ((alLookup (some s) kv.2.state_count).getD 0)⟩ : Sample)).filter
          (fun smp => decide (smp.labels.take 1 = [d])) = [] := by
      intro kv hkv hne
      refine List.filter_eq_nil_iff.mpr ?_
      intro smp hsmp
      obtain ⟨s, hsmem, hsEq⟩ := List.mem_map.mp hsmp
      subst hsEq
      simp only [decide_eq_true_eq]
      intro hlab
      have h1 : kv.2.meta.dag_id = d := by
        simpa using hlab
      apply hne
      rw [← dags_info_meta_key _ kv hkv, h1]
    have hself : (dag_states.map fun s =>
        (⟨[E.meta.dag_id, E.meta.owners, s],
          .num ((alLookup (some s) E.state_count).getD 0)⟩ : Sample)).filter
        (fun smp => decide (smp.labels.take 1 = [d]))
        = dag_states.map fun s =>
          (⟨[E.meta.dag_id, E.meta.owners, s],
            .num ((alLookup (some s) E.state_count).getD 0)⟩ : Sample) := by
      refine List.filter_eq_self.mpr ?_
      intro smp hsmp
      obtain ⟨s, hsmem, hsEq⟩ := List.mem_map.mp hsmp
      subst hsEq
      simp [hmetaE, dagQueryRow, hk01]
    have hfinal := flatMap_filter_single d E
      (fun kv : String × DagEntry => dag_states.map fun s =>
        (⟨[kv.2.meta.dag_id, kv.2.meta.owners, s],
          .num ((alLookup (some s) kv.2.state_count).getD 0)⟩ : Sample))
      (fun smp => decide (smp.labels.take 1 = [d]))
      (dags_info_by_id (get_dag_state_info db)) hnodup hmem_e hothers hself
    calc samplesFor1 (dagStatusSamples (get_dag_state_info db)) d
        = dag_states.map (fun s =>
            (⟨[E.meta.dag_id, E.meta.owners, s],
              .num ((alLookup (some s) E.state_count).getD 0)⟩ : Sample)) := hfinal
      _ = dag_states.map fun s =>
            ⟨[d, dm.owners, s],
              .num ((db.dag_runs.filter fun r =>
                decide (r.dag_id = d ∧ r.state = some s)).length)⟩ := by
          refine List.map_congr_left ?_
          intro s _hs
          rw [hmetaE, hscE, hval s]
          simp [dagQueryRow, hk01]

/-- Under `StatusHyps`, the emitted per-state run counts for `d` sum to
the number of dag-run rows of `d`. -/
theorem dagStatus_dag_sum (db : Db) (dm : DagModelRow) (d t : String)
    (h : StatusHyps db dm d t) :
    sumValues (samplesFor1 (dagStatusSamples (get_dag_state_info db)) d)
      = ((db.dag_runs.filter fun r => decide (r.dag_id = d)).length : Int) := by
  have hrstates : ∀ r ∈ db.dag_runs, ∃ s ∈ dag_states, r.state = some s :=
    h.2.2.2.2.2.2.2.2.1
  rw [dagStatus_dag_eq db dm d t h]
  rw [sumValues_map_num (fun s => [d, dm.owners, s])
    (fun s => (db.dag_runs.filter fun r =>
      decide (r.dag_id = d ∧ r.state = some s)).length)]
  have hpt : ∀ s : String,
      (db.dag_runs.filter fun r => decide (r.dag_id = d ∧ r.state = some s))
      = ((db.dag_runs.filter fun r => decide (r.dag_id = d)).filter fun r =>
          decide (r.state = some s)) := by
    intro s
    rw [List.filter_filter]
    refine (List.filter_congr ?_).symm
    intro r _
    by_cases h1 : r.dag_id = d <;> by_cases h2 : r.state = some s <;> simp [h1, h2]
  have hres := sum_filter_lengths (fun r : DagRunRow => r.state)
    (dag_states.map Option.some) (by decide)
    (db.dag_runs.filter fun r => decide (r.dag_id = d))
    (fun r hr => by
      obtain ⟨s, hs, hsomeEq⟩ := hrstates r (List.mem_filter.mp hr).1
      show r.state ∈ dag_states.map Option.some
      rw [hsomeEq]
      exact List.mem_map.mpr ⟨s, hs, rfl⟩)
  have hmm : ((dag_states.map Option.some).map fun k =>
      ((db.dag_runs.filter fun r => decide (r.dag_id = d)).filter fun r =>
        decide (r.state = k)).length).sum
      = (dag_states.map fun s =>
        ((db.dag_runs.filter fun r => decide (r.dag_id = d)).filter fun r =>
          decide (r.state = some s)).length).sum := by
    rw [List.map_map]
    rfl
  have hnat : (dag_states.map fun s => (db.dag_runs.filter fun r =>
      decide (r.dag_id = d ∧ r.state = some s)).length).sum
      = (db.dag_runs.filter fun r => decide (r.dag_id = d)).length := by
    calc (dag_states.map fun s => (db.dag_runs.filter fun r =>
          decide (r.dag_id = d ∧ r.state = some s)).length).sum
        = (dag_states.map fun s => ((db.dag_runs.filter fun r =>
            decide (r.dag_id = d)).filter fun r =>
            decide (r.state = some s)).length).sum := by
          congr 1
          exact List.map_congr_left fun s _ => by rw [hpt s]
      _ = ((dag_states.map Option.some).map fun k =>
            ((db.dag_runs.filter fun r => decide (r.dag_id = d)).filter fun r =>
              decide (r.state = k)).length).sum := hmm.symm
      _ = _ := hres
  exact_mod_cast hnat

/-! ### Claim theorems -/

/-- **C1** (corrected, amended claim): two independent defects break the
original claim.  First, the aggregation dict is keyed by the concatenated
uid `f"\x7bdag_id\x7d_\x7btask_id\x7d"`, so colliding pairs are
merged and a pair can lose its vector entirely (see the counterexample).
Second, the task-state query labels its count column `value` while the
aggregation stores `task.count`, which therefore resolves to the bound
tuple `count` method: present states emit that method object, not an
integer, so the integer-count/sum property cannot hold at the task
level.  What does hold, under explicit well-formedness hypotheses
(`StatusHyps`): the task vector still has exactly one sample per defined
task state — the integer `0` for absent states, the group row's bound
`count` method for present ones — and at the dag level (where
`dag.count` is a genuine column) the dense vector carries true
non-negative integer counts whose sum equals the number of run rows of
the dag. -/
theorem status_vectors_dense (db : Db) (dm : DagModelRow) (d t : String)
    (h : StatusHyps db dm d t) :
    samplesFor2 (taskStatusSamples (get_task_state_info db)) d t
      = (task_states.map fun s =>
          ⟨[d, t, dm.owners, normState s],
            if (db.task_instances.filter fun ti =>
                decide (ti.dag_id = d ∧ ti.task_id = t ∧ ti.state = s)) = []
            then .num 0
            else .countMethod (taskQueryRow db dm (d, t, s))⟩)
    ∧ samplesFor1 (dagStatusSamples (get_dag_state_info db)) d
      = (dag_states.map fun s =>
          ⟨[d, dm.owners, s],
            .num ((db.dag_runs.filter fun r =>
              decide (r.dag_id = d ∧ r.state = some s)).length)⟩)
    ∧ sumValues (samplesFor1 (dagStatusSamples (get_dag_state_info db)) d)
      = ((db.dag_runs.filter fun r => decide (r.dag_id = d)).length : Int) :=
  ⟨taskStatus_pair_eq db dm d t h, dagStatus_dag_eq db dm d t h,
   dagStatus_dag_sum db dm d t h⟩

/-- **C1** counterexample: in `exCollideDb` the pair `("a", "b_c")`
appears in a task-instance row of an active, unpaused dag, yet the
emitted `airflow_task_status` vector for that pair is empty — its uid
`a_b_c` collides with the pair `("a_b", "c")`, whose dict entry absorbed
the row.  Moreover the very first emitted sample (for the present state
`success`) carries the bound tuple `count` method of its group row, not
an integer count. -/
theorem status_collision_counterexample :
    (∃ ti ∈ exCollideDb.task_instances, ti.dag_id = "a" ∧ ti.task_id = "b_c")
    ∧ samplesFor2 (taskStatusSamples (get_task_state_info exCollideDb)) "a" "b_c"
        = []
    ∧ (taskStatusSamples (get_task_state_info exCollideDb)).head?
        = some ⟨["a_b", "c", "owner1", "success"],
            .countMethod ⟨"a_b", "c", some "success", 1, "owner1"⟩⟩ :=
  ⟨by decide, rfl, rfl⟩

/-- **C1** witness: the characterization applied to the well-behaved
`exGoodDb` at the pair `("etl", "load")`: the task vector has one sample
per defined task state, and the dag-level per-state run counts sum to
its 2 runs. -/
theorem status_vectors_dense_witness :
    StatusHyps exGoodDb ⟨"etl", "alice", true, false⟩ "etl" "load"
    ∧ (samplesFor2 (taskStatusSamples (get_task_state_info exGoodDb))
        "etl" "load").length = task_states.length
    ∧ sumValues (samplesFor1 (dagStatusSamples (get_dag_state_info exGoodDb)) "etl")
        = 2 := by
  have hh : StatusHyps exGoodDb ⟨"etl", "alice", true, false⟩ "etl" "load" := by
    unfold StatusHyps
    decide
  refine ⟨hh, ?_, ?_⟩
  · rw [(status_vectors_dense exGoodDb ⟨"etl", "alice", true, false⟩ "etl" "load" hh).1,
      List.length_map]
  · rw [(status_vectors_dense exGoodDb ⟨"etl", "alice", true, false⟩ "etl" "load"
      hh).2.2]
    rfl

/-- **C9** (corrected, amended claim): NULL states are normalized into a
distinguished "none" bucket at the `(workflow, step)` level only, and
even there the bucket's emitted value is not the count: under
`StatusHyps`, when the pair `(d, t)` has NULL-state rows, the
`airflow_task_status` vector carries a sample labelled `"none"` holding
the NULL-state group row's bound tuple `count` method (the group row's
`value` column does record the number of NULL-state rows, but line 408
stores `task.count`, not `task.value`).  At the workflow level there is
no "none" bucket at all: every `airflow_dag_status` sample is labelled
by one of the three defined dag states, and a NULL-state run group
reaches the aggregation with `COUNT(state) = 0`, so NULL-state runs are
counted nowhere. -/
theorem none_bucket_task_level_only (db : Db) (dm : DagModelRow) (d t : String)
    (h : StatusHyps db dm d t)
    (hnull : (db.task_instances.filter fun ti =>
      decide (ti.dag_id = d ∧ ti.task_id = t ∧ ti.state = none)) ≠ []) :
    ((⟨[d, t, dm.owners, "none"],
        .countMethod (taskQueryRow db dm (d, t, none))⟩ : Sample)
      ∈ samplesFor2 (taskStatusSamples (get_task_state_info db)) d t)
    ∧ (taskQueryRow db dm (d, t, none)).value
      = (db.task_instances.filter fun ti =>
          decide (ti.dag_id = d ∧ ti.task_id = t ∧ ti.state = none)).length
    ∧ (∀ smp ∈ dagStatusSamples (get_dag_state_info db),
        ∃ a b s, s ∈ dag_states ∧ smp.labels = [a, b, s])
    ∧ (∀ row ∈ get_dag_state_info db, row.state = none → row.count = 0) := by
  refine ⟨?_, rfl, ?_, ?_⟩
  · rw [taskStatus_pair_eq db dm d t h]
    refine List.mem_map.mpr ⟨none, by decide, ?_⟩
    rw [if_neg hnull]
    rfl
  · intro smp hsmp
    unfold dagStatusSamples at hsmp
    obtain ⟨kv, hkv, hsm⟩ := List.mem_flatMap.mp hsmp
    obtain ⟨s, hs, hsEq⟩ := List.mem_map.mp hsm
    subst hsEq
    exact ⟨kv.2.meta.dag_id, kv.2.meta.owners, s, hs, rfl⟩
  · intro row hrow hstate
    rw [get_dag_state_info_eq] at hrow
    obtain ⟨k, hk, hrow2⟩ := List.mem_flatMap.mp hrow
    obtain ⟨dmr, hdmr, hrEq⟩ := List.mem_map.mp hrow2
    subst hrEq
    have hk2 : k.2 = none := hstate
    show ((db.dag_runs.filter fun r =>
      decide (r.dag_id = k.1 ∧ r.state = k.2)).filter
      (fun r => r.state.isSome)).length = 0
    have hnil : (db.dag_runs.filter fun r =>
        decide (r.dag_id = k.1 ∧ r.state = k.2)).filter
        (fun r => r.state.isSome) = [] := by
      refine List.filter_eq_nil_iff.mpr ?_
      intro r hr
      rw [(of_decide_eq_true (List.mem_filter.mp hr).2).2, hk2]
      simp
    rw [hnil]
    rfl

/-- **C9** counterexample: `exNullStateDb` has exactly one dag run, a
NULL-state run of the active, unpaused dag `d`; the emitted
`airflow_dag_status` vector for `d` has no "none" bucket and every count
is zero, so the NULL-state run is counted under no bucket at the
workflow level. -/
theorem dag_none_bucket_counterexample :
    exNullStateDb.dag_runs = [⟨"d", none, 5, none, none⟩]
    ∧ dagStatusSamples (get_dag_state_info exNullStateDb)
        = [⟨["d", "owner", "success"], .num 0⟩,
           ⟨["d", "owner", "running"], .num 0⟩,
           ⟨["d", "owner", "failed"], .num 0⟩] :=
  ⟨rfl, rfl⟩

/-- **C9** witness: on `exGoodDb` the `(etl, load)` task-status vector
carries a "none" bucket sample holding the bound `count` method of the
NULL-state group row, whose `value` column records its single NULL-state
row. -/
theorem none_bucket_task_level_only_witness :
    StatusHyps exGoodDb ⟨"etl", "alice", true, false⟩ "etl" "load"
    ∧ (exGoodDb.task_instances.filter fun ti =>
        decide (ti.dag_id = "etl" ∧ ti.task_id = "load" ∧ ti.state = none)) ≠ []
    ∧ ((⟨["etl", "load", "alice", "none"],
          .countMethod ⟨"etl", "load", none, 1, "alice"⟩⟩ : Sample)
        ∈ samplesFor2 (taskStatusSamples (get_task_state_info exGoodDb))
          "etl" "load") := by
  have hh : StatusHyps exGoodDb ⟨"etl", "alice", true, false⟩ "etl" "load" := by
    unfold StatusHyps
    decide
  have hnull : (exGoodDb.task_instances.filter fun ti =>
      decide (ti.dag_id = "etl" ∧ ti.task_id = "load" ∧ ti.state = none)) ≠ [] := by
    decide
  refine ⟨hh, hnull, ?_⟩
  exact (none_bucket_task_level_only exGoodDb ⟨"etl", "alice", true, false⟩
    "etl" "load" hh hnull).1

/-- **C3** (code_bug): the latest-step-duration query is intended as a
two-stage narrowing returning the matched step instance's start/end
timestamps, but the source chains `.filter(...).all()` onto the
`and_(...)` boolean clause inside `join`, so the call raises
`AttributeError` on every input and never returns any row. -/
theorem task_duration_query_always_raises (state : String) (db : Db) :
    get_task_duration_info state db =
      .error "AttributeError: BooleanClauseList object has no attribute filter" :=
  get_task_duration_info_eq_error state db

/-- **C4** (corrected, amended claim): there is no per-family error
isolation: the first raised error aborts the whole pass.  Because the
`airflow_task_duration` query always raises, every collection pass emits
exactly the `airflow_task_status` family and then stops with the
`AttributeError`. -/
theorem collect_aborts_at_first_error (env : CollectEnv) (db : Db) (utc_now : Int) :
    collect env db utc_now =
      ([⟨"airflow_task_status", taskStatusSamples (get_task_state_info db)⟩],
       some "AttributeError: BooleanClauseList object has no attribute filter") := rfl

/-- **C4** counterexample: on a database where the queue-depth family
would emit the value 1, the pass still stops after the first family, so
the later families do not emit. -/
theorem collect_no_isolation_counterexample :
    (collect exEnv exPausedDb 1000).1.map Family.name = ["airflow_task_status"]
    ∧ (collect exEnv exPausedDb 1000).2.isSome = true
    ∧ get_num_queued_tasks exPausedDb = 1 :=
  ⟨rfl, rfl, rfl⟩

/-- **C5** counterexample: with a single paused dag, its queued task
instance is still counted by `get_num_queued_tasks` and its xcom row is
still returned by `get_xcom_params`, so those read operations do not
restrict to active, unpaused workflows. -/
theorem unfiltered_queries_counterexample :
    get_num_queued_tasks exPausedDb = 1
    ∧ get_xcom_params "all" exPausedDb = [⟨"p", "t", "k", 7, "1"⟩]
    ∧ exPausedDb.dag_models.all (fun dm => dm.is_paused) = true :=
  ⟨rfl, rfl, rfl⟩

/-- **C5** (corrected, amended claim): the state-count, failure-count and
duration queries do restrict their rows to active, unpaused workflows
(the xcom, scheduler-delay and queue-depth queries do not — see the
counterexample). -/
theorem status_and_fail_queries_filter_active_unpaused (db : Db) :
    (∀ r ∈ get_dag_state_info db, ∃ dm ∈ db.dag_models,
      dm.dag_id = r.dag_id ∧ dm.is_active = true ∧ dm.is_paused = false)
    ∧ (∀ r ∈ get_task_state_info db, ∃ dm ∈ db.dag_models,
      dm.dag_id = r.dag_id ∧ dm.is_active = true ∧ dm.is_paused = false)
    ∧ (∀ r ∈ get_task_failure_counts db, ∃ dm ∈ db.dag_models,
      dm.dag_id = r.dag_id ∧ dm.is_active = true ∧ dm.is_paused = false)
    ∧ (∀ state, ∀ r ∈ get_dag_duration_info state db, ∃ dm ∈ db.dag_models,
      dm.dag_id = r.dag_id ∧ dm.is_active = true ∧ dm.is_paused = false) := by
  refine ⟨?_, ?_, ?_, ?_⟩
  · intro r hr
    simp only [get_dag_state_info] at hr
    obtain ⟨k, -, hr2⟩ := List.mem_flatMap.mp hr
    obtain ⟨dm, hdm, rfl⟩ := List.mem_map.mp hr2
    obtain ⟨hdm_mem, hcond⟩ := List.mem_filter.mp hdm
    rw [decide_eq_true_eq] at hcond
    exact ⟨dm, hdm_mem, hcond.1, hcond.2.1, hcond.2.2⟩
  · intro r hr
    simp only [get_task_state_info] at hr
    obtain ⟨k, -, hr2⟩ := List.mem_flatMap.mp hr
    obtain ⟨dm, hdm, rfl⟩ := List.mem_map.mp hr2
    obtain ⟨hdm_mem, hcond⟩ := List.mem_filter.mp hdm
    rw [decide_eq_true_eq] at hcond
    exact ⟨dm, hdm_mem, hcond.1, hcond.2.1, hcond.2.2⟩
  · intro r hr
    simp only [get_task_failure_counts] at hr
    obtain ⟨k, hk, rfl⟩ := List.mem_map.mp hr
    obtain ⟨tf, htf, hkEq⟩ := List.mem_map.mp (List.mem_dedup.mp hk)
    obtain ⟨tf0, -, hin⟩ := List.mem_flatMap.mp htf
    obtain ⟨dm, hdm, hEq0⟩ := List.mem_map.mp hin
    obtain ⟨hdm_mem, hcond⟩ := List.mem_filter.mp hdm
    rw [decide_eq_true_eq] at hcond
    refine ⟨dm, hdm_mem, ?_, hcond.2.1, hcond.2.2⟩
    show dm.dag_id = k.1
    rw [← hkEq]
    show dm.dag_id = tf.dag_id
    rw [← hEq0]
    exact hcond.1
  · intro state r hr
    simp only [get_dag_duration_info] at hr
    obtain ⟨q, hq, hr2⟩ := List.mem_flatMap.mp hr
    obtain ⟨run, -, hr3⟩ := List.mem_flatMap.mp hr2
    obtain ⟨ti, -, hrEq⟩ := List.mem_map.mp hr3
    obtain ⟨p, hp, hq2⟩ := List.mem_filterMap.mp hq
    obtain ⟨mn, -, hqEq⟩ := Option.map_eq_some'.mp hq2
    obtain ⟨d, hd, hp2⟩ := List.mem_filterMap.mp hp
    obtain ⟨m, -, hpEq⟩ := Option.map_eq_some'.mp hp2
    obtain ⟨run0, hrun0, hd0⟩ := List.mem_map.mp (List.mem_dedup.mp hd)
    obtain ⟨r0, -, hin⟩ := List.mem_flatMap.mp hrun0
    have hdag : r.dag_id = run0.dag_id := by
      rw [← hrEq]
      show q.1 = run0.dag_id
      rw [← hqEq]
      show p.1 = run0.dag_id
      rw [← hpEq]
      exact hd0.symm
    by_cases hc : decide (r0.state = some state
        ∧ (state = "success" → r0.end_date.isSome = true)) = true
    · rw [if_pos hc] at hin
      obtain ⟨dm, hdm, hEq0⟩ := List.mem_map.mp hin
      obtain ⟨hdm_mem, hcond⟩ := List.mem_filter.mp hdm
      rw [decide_eq_true_eq] at hcond
      refine ⟨dm, hdm_mem, ?_, hcond.2.1, hcond.2.2⟩
      rw [hdag, ← hEq0]
      exact hcond.1
    · rw [if_neg hc] at hin
      exact absurd hin (List.not_mem_nil _)

/-- **C6** counterexample: the single most recent canary run has a NULL
start date; the dag-scheduler-delay loop raises a `TypeError` on it
instead of excluding it. -/
theorem dag_scheduler_delay_counterexample :
    get_dag_scheduler_delay exNullStartDb = [⟨"canary_dag", 100, none⟩]
    ∧ dagSchedulerDelaySamples (get_dag_scheduler_delay exNullStartDb)
      = .error "TypeError: unsupported operand types for datetime subtraction" :=
  ⟨rfl, rfl⟩

/-- **C6** (corrected, amended claim): the dag-scheduler-delay loop never
excludes a row: it only succeeds when every returned row has a non-null
start date (computing `start_date - execution_date` for each); a row with
a NULL start date makes it raise instead (see the counterexample). -/
theorem dag_scheduler_delay_null_not_excluded (rows : List DagSchedulerDelayRow)
    (ss : List Sample) (h : dagSchedulerDelaySamples rows = .ok ss) :
    (∀ r ∈ rows, r.start_date.isSome = true)
    ∧ ss = rows.map fun r =>
        ⟨[r.dag_id], .num (r.start_date.getD 0 - r.execution_date)⟩ :=
  mapOrRaise_ok_pointwise _
    (fun r => ⟨[r.dag_id], .num (r.start_date.getD 0 - r.execution_date)⟩)
    (fun r => r.start_date.isSome)
    (fun r => by cases hd : r.start_date <;> simp [hd]) rows ss h

/-- **C6** witness: a concrete run with a present start date. -/
theorem dag_scheduler_delay_null_not_excluded_witness :
    dagSchedulerDelaySamples [⟨"canary_dag", 100, some 105⟩]
      = .ok [⟨["canary_dag"], .num 5⟩]
    ∧ ∀ r ∈ [(⟨"canary_dag", 100, some 105⟩ : DagSchedulerDelayRow)],
        r.start_date.isSome = true :=
  ⟨rfl, (dag_scheduler_delay_null_not_excluded [⟨"canary_dag", 100, some 105⟩]
    [⟨["canary_dag"], .num 5⟩] rfl).1⟩

/-- **C2** (confirmed): each duration/elapsed-since gauge value is
computed against the one `utc_now` captured at the start of the pass:
`airflow_task_duration` and `airflow_dag_run_duration` emit
`utc_now - start_date`, `airflow_last_task_success_time` and
`airflow_last_dag_success_time` emit `utc_now - end_date`; `end - start`
is never used. -/
theorem duration_gauges_shared_now (utc_now : Int)
    (trows srows : List TaskDurationRow) (drows grows : List DagDurationRow)
    (ts ss gs : List Sample)
    (ht : taskDurationSamples utc_now trows = .ok ts)
    (hs : lastTaskSuccessSamples utc_now srows = .ok ss)
    (hg : lastDagSuccessSamples utc_now grows = .ok gs) :
    ts = trows.map (fun t => ⟨[t.task_id, t.dag_id, dateLabel t.execution_date],
      .num (utc_now - t.start_date.getD 0)⟩)
    ∧ ss = srows.map (fun t => ⟨[t.task_id, t.dag_id, dateLabel t.execution_date],
      .num (utc_now - t.end_date.getD 0)⟩)
    ∧ dagDurationSamples utc_now drows
      = drows.map (fun d => ⟨[d.dag_id], .num (utc_now - d.start_date)⟩)
    ∧ gs = grows.map (fun d => ⟨[d.dag_id], .num (utc_now - d.end_date.getD 0)⟩) := by
  refine ⟨?_, ?_, rfl, ?_⟩
  · exact (mapOrRaise_ok_pointwise _
      (fun t => ⟨[t.task_id, t.dag_id, dateLabel t.execution_date],
        .num (utc_now - t.start_date.getD 0)⟩)
      (fun t => t.start_date.isSome)
      (fun t => by cases hd : t.start_date <;> simp [hd]) trows ts ht).2
  · exact (mapOrRaise_ok_pointwise _
      (fun t => ⟨[t.task_id, t.dag_id, dateLabel t.execution_date],
        .num (utc_now - t.end_date.getD 0)⟩)
      (fun t => t.end_date.isSome)
      (fun t => by cases hd : t.end_date <;> simp [hd]) srows ss hs).2
  · exact (mapOrRaise_ok_pointwise _
      (fun d => ⟨[d.dag_id], .num (utc_now - d.end_date.getD 0)⟩)
      (fun d => d.end_date.isSome)
      (fun d => by cases hd : d.end_date <;> simp [hd]) grows gs hg).2

/-- **C2** witness: concrete rows at `utc_now = 1000`. -/
theorem duration_gauges_shared_now_witness :
    taskDurationSamples 1000 [⟨"d1", "t1", some 10, some 20, 86400⟩]
      = .ok [⟨["t1", "d1", "1"], .num 990⟩]
    ∧ dagDurationSamples 1000 [⟨"d1", 40, some 50⟩]
      = [⟨["d1"], .num 960⟩]
    ∧ [(⟨["t1", "d1", "1"], .num 990⟩ : Sample)]
      = [(⟨"d1", "t1", some 10, some 20, 86400⟩ : TaskDurationRow)].map
          (fun t => ⟨[t.task_id, t.dag_id, dateLabel t.execution_date],
            .num (1000 - t.start_date.getD 0)⟩) := by
  refine ⟨rfl, rfl, ?_⟩
  exact (duration_gauges_shared_now 1000
    [⟨"d1", "t1", some 10, some 20, 86400⟩] [] [⟨"d1", 40, some 50⟩] []
    [⟨["t1", "d1", "1"], .num 990⟩] [] [] rfl rfl rfl).1

/-- **C7** counterexample: with pickling enabled, a blob that fails to
unpickle makes `extract_xcom_parameter` raise (and log nothing) instead
of returning an empty object. -/
theorem extract_xcom_pickle_raises_counterexample :
    extract_xcom_parameter exPickleEnv "notapickle"
      = (.error "UnpicklingError: invalid load key", []) := rfl

/-- **C7** (corrected, amended claim): decode-failure handling differs by
mode: with pickling disabled a JSON decode failure yields the empty
object with one log line and no raise; with pickling enabled an
unpickling failure raises (no log, family aborted), and a JSON failure
after successful unpickling yields the empty object silently. -/
theorem extract_xcom_decode_failure_modes (env : CollectEnv) (value : String) :
    (env.enable_xcom_pickling = false → jsonParse value = none →
      extract_xcom_parameter env value = (.ok (.obj []), [xcomJsonLogMsg]))
    ∧ (∀ e, env.enable_xcom_pickling = true → env.pickle_loads value = .error e →
        extract_xcom_parameter env value = (.error e, []))
    ∧ (∀ s, env.enable_xcom_pickling = true →
        env.pickle_loads value = .ok (.text s) → jsonParse s = none →
        extract_xcom_parameter env value = (.ok (.obj []), [])) := by
  refine ⟨fun h1 h2 => ?_, fun e h1 h2 => ?_, fun s h1 h2 h3 => ?_⟩
  · simp [extract_xcom_parameter, h1, h2]
  · simp [extract_xcom_parameter, h1, h2]
  · simp [extract_xcom_parameter, h1, h2, h3]

/-- **C7** witness: the three amended branches at concrete inputs. -/
theorem extract_xcom_decode_failure_modes_witness :
    jsonParse "]" = none
    ∧ extract_xcom_parameter exEnv "]" = (.ok (.obj []), [xcomJsonLogMsg])
    ∧ extract_xcom_parameter exPickleEnv "px" = (.ok (.obj []), []) :=
  ⟨rfl, (extract_xcom_decode_failure_modes exEnv "]").1 rfl rfl,
   (extract_xcom_decode_failure_modes exPickleEnv "px").2.2 "x]" rfl rfl rfl⟩

/-- **C8** counterexample: a present but malformed `config.yaml` makes
`load_xcom_config` raise the YAML error (only `FileNotFoundError` is
caught) instead of returning the empty document. -/
theorem xcom_config_malformed_counterexample :
    load_xcom_config exBadYamlEnv = .error "ScannerError: while scanning a flow node" := rfl

/-- **C8** (corrected, amended claim): when the config file is absent
from both search paths, `load_xcom_config` returns the empty document
and the xcom_parameter family emits zero rows; a malformed file instead
raises (see the counterexample). -/
theorem xcom_config_absent_empty (env : CollectEnv) (db : Db)
    (h1 : env.cwd_config = none) (h2 : env.module_config = none) :
    load_xcom_config env = .ok (.dict [])
    ∧ xcomSamples env db = .ok [] := by
  have hload : load_xcom_config env = .ok (.dict []) := by
    simp [load_xcom_config, h1, h2, Option.orElse]
  refine ⟨hload, ?_⟩
  simp [xcomSamples, hload, Yaml.get, Yaml.asList, alLookup, mapOrRaise, Except.map]

/-- **C10** (confirmed): in direct JSON-from-bytes mode,
`extract_xcom_parameter` applied to the UTF-8 JSON encoding of a value
`x` returns exactly `x` (with no log lines): decode inverts encode. -/
theorem extract_inverts_json_encoding (env : CollectEnv) (x : Json)
    (h : env.enable_xcom_pickling = false) :
    extract_xcom_parameter env (jsonEncode x) = (.ok x, []) := by
  simp [extract_xcom_parameter, h, jsonParse_jsonEncode]

/-- **C10** witness: the encoding of a nested document decodes back to it
under the benign environment. -/
theorem extract_inverts_json_encoding_witness :
    exEnv.enable_xcom_pickling = false
    ∧ extract_xcom_parameter exEnv
        (jsonEncode (.obj [("a", .num (-5)), ("b", .arr [.null, .bool true, .str "x\n"])]))
      = (.ok (.obj [("a", .num (-5)), ("b", .arr [.null, .bool true, .str "x\n"])]), []) :=
  ⟨rfl, extract_inverts_json_encoding exEnv _ rfl⟩

/-- **C8** witness: the absent-file environment at a concrete database. -/
theorem xcom_config_absent_empty_witness :
    exEnv.cwd_config = none ∧ exEnv.module_config = none
    ∧ load_xcom_config exEnv = .ok (.dict [])
    ∧ xcomSamples exEnv exGoodDb = .ok [] :=
  ⟨rfl, rfl, (xcom_config_absent_empty exEnv exGoodDb rfl rfl).1,
   (xcom_config_absent_empty exEnv exGoodDb rfl rfl).2⟩

end AirflowExporter
